import Mathlib

/-!
Verification of the core of the athlete-performance-predictor repository.

The definitions below are a shallow embedding of the Python sources:
  - src/core/deduplication.py      (DeduplicationEngine)
  - src/core/calorie_calculator.py (EnhancedCalorieCalculator)
  - src/core/multi_athlete_calorie_calculator.py (MultiAthleteCalorieCalculator)
  - src/connectors/base.py         (BaseConnector.make_request, sync_data)
  - src/core/data_ingestion.py     (DataIngestionOrchestrator.sync_all_sources)

Conventions of the embedding:
  - Python floats/ints are modelled as exact rationals / integers.
  - Python `int(x)` (truncation toward zero) is `pyInt`.
  - Python `Optional` values are `Option`; Python truthiness of an optional
    number (None and 0 are falsy) is `optQTruthy` / `optIntTruthy`, of an
    optional string (None and "" are falsy) is `optStrTruthy`.
  - Python dicts are insertion-ordered association lists; `dictInsert` has
    the semantics of `d[k] = v` (replace in place or append).
  - The haversine coordinate-proximity test of
    `DeduplicationEngine._coordinates_within_distance` uses floating-point
    trigonometry; the engine is therefore parameterised by a boolean
    coordinate-closeness predicate `close`.  Every theorem about the GPS
    pass holds for an arbitrary `close`.  For concrete witnesses we use
    `coordClose`, which is true on identical coordinates -- any faithful
    haversine predicate agrees there, because the haversine distance of a
    point to itself is 0 <= 10 meters.
-/

/-- Python `int(x)`: truncation of a rational toward zero. -/
def pyInt (q : ℚ) : ℤ :=
  if 0 ≤ q then ⌊q⌋ else ⌈q⌉

/-- Python truthiness of an optional number: `None` and `0` are falsy. -/
def optQTruthy : Option ℚ → Bool
  | none => false
  | some q => q ≠ 0

/-- Python truthiness of an optional integer: `None` and `0` are falsy. -/
def optIntTruthy : Option ℤ → Bool
  | none => false
  | some n => n ≠ 0

/-- Python truthiness of an optional string: `None` and the empty string are falsy. -/
def optStrTruthy : Option String → Bool
  | none => false
  | some s => s ≠ ""

/-- Python `d[k] = v` on an insertion-ordered association list: replace the
value of an existing key in place, otherwise append the new binding. -/
def dictInsert {α : Type} (d : List (String × α)) (k : String) (v : α) : List (String × α) :=
  if d.any (fun p => p.1 = k) then d.map (fun p => if p.1 = k then (k, v) else p)
  else d ++ [(k, v)]

/-- Python `d1.update(d2)` on association lists: insert every binding of `d2`
into `d1` in order. -/
def dictUpdate {α : Type} (d1 d2 : List (String × α)) : List (String × α) :=
  d2.foldl (fun d p => dictInsert d p.1 p.2) d1

/-- Append a value to the bucket of key `k`, creating the bucket at the end
when the key is new.  This is the `groups.setdefault`-style accumulation used
by `_group_by_external_ids` and `deduplicate_biometrics` (Python dicts keep
first-insertion key order). -/
def bucketAdd {κ α : Type} [DecidableEq κ] (gs : List (κ × List α)) (k : κ) (x : α) :
    List (κ × List α) :=
  if gs.any (fun p => p.1 = k) then gs.map (fun p => if p.1 = k then (p.1, p.2 ++ [x]) else p)
  else gs ++ [(k, [x])]

/-- Maximum of a list of rationals (`max(values)` in Python); `none` on the
empty list. -/
def listMaxQ (l : List ℚ) : Option ℚ :=
  l.max?

/-- Maximum of a list of integers; `none` on the empty list. -/
def listMaxZ (l : List ℤ) : Option ℤ :=
  l.max?

/-- Raw source payload of a workout.  Shallow model of the `raw_data` dict:
only the keys the core logic reads are represented.  `athleteWeight` stands
for `raw_data["athlete"]["weight"]`, `bodyWeight` for `raw_data["weight"]`,
`kilojoules` for `raw_data["kilojoules"]`, and `exerciseSets` for the list of
`sets` counts under `raw_data["exercises"]`. -/
structure RawData where
  kilojoules : Option ℚ := none
  athleteWeight : Option ℚ := none
  bodyWeight : Option ℚ := none
  exerciseSets : Option (List ℕ) := none
  deriving DecidableEq, Repr

/-- GPS coordinate in `[lon, lat]` order, as read by
`_coordinates_within_distance`. -/
abbrev Coord := ℚ × ℚ

/-- Canonical workout record (src/core/models.py `Workout`).  `start_time` and
`end_time` are seconds on a common clock; `duration` is seconds.  The
deduplication engine addresses the originating source as `workout.source`. -/
structure Workout where
  workout_id : String
  start_time : ℚ
  end_time : ℚ
  duration : ℚ
  sport : String
  sport_category : String
  distance : Option ℚ := none
  calories : Option ℤ := none
  heart_rate_avg : Option ℚ := none
  heart_rate_max : Option ℚ := none
  elevation_gain : Option ℚ := none
  power_avg : Option ℚ := none
  cadence_avg : Option ℚ := none
  training_load : Option ℚ := none
  perceived_exertion : Option ℚ := none
  has_gps : Bool := false
  route_hash : Option String := none
  gps_data : Option (List Coord) := none
  source : String
  external_ids : List (String × String) := []
  raw_data : Option RawData := none
  data_quality_score : ℚ := 1
  ml_features_extracted : Bool := false
  plugin_data : List (String × String) := []
  deriving DecidableEq, Repr

/-- Canonical biometric reading (src/core/models.py `BiometricReading`).
`date` is a day ordinal. -/
structure BiometricReading where
  date : ℤ
  metric_type : String
  value : ℚ
  unit : String
  source : String
  confidence : ℚ := 1
  external_id : Option String := none
  deriving DecidableEq, Repr

/-- Fixed source precedence list of the deduplication engine
(`DeduplicationEngine.PRECEDENCE`; lower index is higher priority). -/
def PRECEDENCE : List String :=
  ["garmin", "strava", "fitbit", "oura", "whoop", "withings", "healthkit", "health_connect"]

/-- Precedence index of a source (`_get_source_precedence`): position in
`PRECEDENCE`, or the length of the list for an unknown source
(`list.index` raises `ValueError`, mapped to `len(self.PRECEDENCE)`). -/
def getSourcePrecedence (source : String) : ℕ :=
  PRECEDENCE.indexOf source

/-- Temporal similarity test (`_are_temporally_similar`): start times within
5 minutes, durations within 10 percent of the larger one, same sport
category. -/
def areTemporallySimilar (w1 w2 : Workout) : Bool :=
  if 5 < |w1.start_time - w2.start_time| / 60 then false
  else if 10 < |w1.duration - w2.duration| / max w1.duration w2.duration * 100 then false
  else w1.sport_category = w2.sport_category

/-- Greedy single-pass grouping shared by `_group_by_temporal_similarity` and
`_group_by_gps_similarity`: the first unprocessed workout collects every later
unprocessed workout similar to it; only groups with more than one member are
kept. -/
def greedyGroups (sim : Workout → Workout → Bool) : List Workout → List (List Workout)
  | [] => []
  | w :: rest =>
    let matched := rest.filter (fun x => sim w x)
    let remaining := rest.filter (fun x => !(sim w x))
    if matched.isEmpty then greedyGroups sim remaining
    else (w :: matched) :: greedyGroups sim remaining
termination_by l => l.length
decreasing_by
  all_goals simp only [List.length_cons]
  all_goals exact Nat.lt_succ_of_le (List.length_filter_le _ _)

/-- Temporal grouping pass (`_group_by_temporal_similarity`). -/
def groupByTemporalSimilarity (ws : List Workout) : List (List Workout) :=
  greedyGroups areTemporallySimilar ws

/-- Keys contributed by a workout to the external-id grouping: one
`"source_extid"` string per entry of `external_ids` with a truthy id. -/
def extIdKeys (w : Workout) : List String :=
  w.external_ids.filterMap (fun p => if p.2 = "" then none else some (p.1 ++ "_" ++ p.2))

/-- External-id grouping pass (`_group_by_external_ids`): bucket the workouts
by each of their `"source_extid"` keys, keep the buckets with more than one
member, in key first-insertion order. -/
def groupByExternalIds (ws : List Workout) : List (List Workout) :=
  ((ws.foldl (fun gs w => (extIdKeys w).foldl (fun gs2 k => bucketAdd gs2 k w) gs) []).filter
      (fun p => 1 < p.2.length)).map (fun p => p.2)

/-- Pointwise GPS route similarity (`_calculate_gps_similarity`): fraction of
corresponding coordinate pairs accepted by the closeness predicate, over the
length of the shorter route; 0 when either route is empty. -/
def calculateGpsSimilarity (close : Coord → Coord → Bool) (g1 g2 : List Coord) : ℚ :=
  if g1.isEmpty || g2.isEmpty then 0
  else ((g1.zip g2).countP (fun p => close p.1 p.2) : ℚ) / (min g1.length g2.length : ℚ)

/-- GPS similarity test (`_are_gps_similar`): both workouts must have the GPS
flag; with two truthy route fingerprints the test is exact fingerprint
equality; otherwise, with two coordinate sequences present, the pointwise
similarity must reach the 0.8 threshold. -/
def areGpsSimilar (close : Coord → Coord → Bool) (w1 w2 : Workout) : Bool :=
  if w1.has_gps && w2.has_gps then
    if optStrTruthy w1.route_hash && optStrTruthy w2.route_hash then
      w1.route_hash = w2.route_hash
    else if w1.gps_data.isSome && w2.gps_data.isSome then
      (8 : ℚ)/10 ≤ calculateGpsSimilarity close (w1.gps_data.getD []) (w2.gps_data.getD [])
    else false
  else false

/-- GPS grouping pass (`_group_by_gps_similarity`): the pass first restricts to
workouts with `has_gps` and a truthy `route_hash`, then groups greedily with
`_are_gps_similar`. -/
def groupByGpsSimilarity (close : Coord → Coord → Bool) (ws : List Workout) :
    List (List Workout) :=
  greedyGroups (areGpsSimilar close) (ws.filter (fun w => w.has_gps && optStrTruthy w.route_hash))

/-- Concrete coordinate-closeness predicate used for witnesses: true on equal
coordinates.  The haversine distance of a coordinate to itself is 0, hence at
most 10 meters, so the source predicate is also true on these inputs. -/
def coordClose (c1 c2 : Coord) : Bool :=
  c1 = c2

/-- Ascending stable sort of a merge group by source precedence
(`sorted(workouts, key=...)` is stable, and so is insertion sort). -/
def sortByPrecedence (ws : List Workout) : List Workout :=
  List.insertionSort (fun a b => getSourcePrecedence a.source ≤ getSourcePrecedence b.source) ws

/-- Values of one optional numeric field over a merge group, in group order
(the `values` list of `_merge_workout_data`). -/
def fieldValues (f : Workout → Option ℚ) (ws : List Workout) : List ℚ :=
  ws.filterMap f

/-- Merge of a maximum-style numeric field (`max(values)` when present). -/
def mergeMaxField (f : Workout → Option ℚ) (ws : List Workout) : Option ℚ :=
  listMaxQ (fieldValues f ws)

/-- Merge of the average-heart-rate field (`sum(values) / len(values)` when
present). -/
def mergeAvgField (f : Workout → Option ℚ) (ws : List Workout) : Option ℚ :=
  match fieldValues f ws with
  | [] => none
  | v :: vs => some ((v :: vs).sum / (v :: vs).length)

/-- Merge of a first-available field (`values[0]`; used for
`perceived_exertion`). -/
def mergeFirstField (f : Workout → Option ℚ) (ws : List Workout) : Option ℚ :=
  (fieldValues f ws).head?

/-- GPS portion of `_merge_workout_data`: the first workout of the sorted
group that has GPS donates flag, fingerprint and coordinates. -/
def mergeGps (sorted : List Workout) : Bool × Option String × Option (List Coord) :=
  match sorted.find? (fun w => w.has_gps) with
  | some w => (true, w.route_hash, w.gps_data)
  | none => (false, none, none)

/-- Merged data-quality score: maximum over the group, 1.0 for an empty
group. -/
def mergeQuality (ws : List Workout) : ℚ :=
  (listMaxQ (ws.map (fun w => w.data_quality_score))).getD 1

/-- Merge of the `raw_data` dicts (`merged["raw_data"].update(...)` for every
member that has one), over the modelled keys. -/
def mergeRawData (sorted : List Workout) : RawData :=
  sorted.foldl
    (fun acc w =>
      match w.raw_data with
      | some raw =>
        { kilojoules := raw.kilojoules.orElse (fun _ => acc.kilojoules),
          athleteWeight := raw.athleteWeight.orElse (fun _ => acc.athleteWeight),
          bodyWeight := raw.bodyWeight.orElse (fun _ => acc.bodyWeight),
          exerciseSets := raw.exerciseSets.orElse (fun _ => acc.exerciseSets) }
      | none => acc)
    {}

/-- Construction of the merged workout record from the precedence-sorted group
(`_merge_workout_group` body plus `_merge_workout_data`); `p` is the first
element of `sorted` (the primary). -/
def mkMergedWorkout (p : Workout) (sorted : List Workout) : Workout :=
  { workout_id := p.workout_id
    start_time := p.start_time
    end_time := p.end_time
    duration := p.duration
    sport := p.sport
    sport_category := p.sport_category
    distance := mergeMaxField (fun w => w.distance) sorted
    calories := listMaxZ (sorted.filterMap (fun w => w.calories))
    heart_rate_avg := mergeAvgField (fun w => w.heart_rate_avg) sorted
    heart_rate_max := mergeMaxField (fun w => w.heart_rate_max) sorted
    elevation_gain := mergeMaxField (fun w => w.elevation_gain) sorted
    power_avg := mergeMaxField (fun w => w.power_avg) sorted
    cadence_avg := mergeMaxField (fun w => w.cadence_avg) sorted
    training_load := mergeMaxField (fun w => w.training_load) sorted
    perceived_exertion := mergeFirstField (fun w => w.perceived_exertion) sorted
    has_gps := (mergeGps sorted).1
    route_hash := (mergeGps sorted).2.1
    gps_data := (mergeGps sorted).2.2
    source := p.source
    external_ids := sorted.foldl (fun acc w => dictUpdate acc w.external_ids) []
    raw_data := some (mergeRawData sorted)
    data_quality_score := mergeQuality sorted
    ml_features_extracted := false
    plugin_data := sorted.foldl (fun acc w => dictUpdate acc w.plugin_data) [] }

/-- Merge one group of duplicate workouts (`_merge_workout_group`): empty
group yields nothing, a singleton is returned unchanged, a larger group is
sorted by precedence and merged. -/
def mergeWorkoutGroup (ws : List Workout) : Option Workout :=
  match ws with
  | [] => none
  | [w] => some w
  | w1 :: w2 :: rest =>
    match sortByPrecedence (w1 :: w2 :: rest) with
    | [] => none
    | p :: sortedRest => some (mkMergedWorkout p (p :: sortedRest))

/-- One step of `_merge_workout_groups`: merge the group, delete its members
from the working list (first occurrence each, like `list.remove`) and append
the merged record.  For temporal and GPS groups (`checkPresent = true`) the
group is skipped when none of its members is still in the working list. -/
def processGroup (checkPresent : Bool) (acc : List Workout) (g : List Workout) : List Workout :=
  if checkPresent && !(g.any (fun w => acc.contains w)) then acc
  else
    match mergeWorkoutGroup g with
    | none => acc
    | some m => (g.foldl (fun l w => l.erase w) acc) ++ [m]

/-- Full merge phase (`_merge_workout_groups`): process the external-id groups
first without a presence check, then the temporal groups, then the GPS
groups. -/
def mergeAllGroups (ws : List Workout) (idGroups temporalGroups gpsGroups : List (List Workout)) :
    List Workout :=
  let afterId := idGroups.foldl (processGroup false) ws
  let afterTemporal := temporalGroups.foldl (processGroup true) afterId
  gpsGroups.foldl (processGroup true) afterTemporal

/-- Top-level workout deduplication (`deduplicate_workouts`). -/
def deduplicateWorkouts (close : Coord → Coord → Bool) (ws : List Workout) : List Workout :=
  if ws.isEmpty then []
  else
    mergeAllGroups ws (groupByExternalIds ws) (groupByTemporalSimilarity ws)
      (groupByGpsSimilarity close ws)

/-- Grouping key of a biometric reading: `(date, metric_type, source)`. -/
def bioKey (r : BiometricReading) : ℤ × String × String :=
  (r.date, r.metric_type, r.source)

/-- Stable descending sort of a biometric group by confidence
(`sorted(readings, key=..., reverse=True)`; Python reverses the comparison,
keeping ties in original order). -/
def sortByConfidenceDesc (rs : List BiometricReading) : List BiometricReading :=
  List.insertionSort (fun a b => b.confidence ≤ a.confidence) rs

/-- Merge one group of biometric readings sharing a key
(`_merge_biometric_group`): singleton unchanged; otherwise the
highest-confidence member donates the key fields, the value is the
confidence-weighted average and the confidence is the average confidence
capped at 1. -/
def mergeBiometricGroup (rs : List BiometricReading) : Option BiometricReading :=
  match rs with
  | [] => none
  | [r] => some r
  | r1 :: r2 :: rest =>
    let group := r1 :: r2 :: rest
    let totalWeight := (group.map (fun r => r.confidence)).sum
    let primary := (sortByConfidenceDesc group).headD r1
    some
      { date := primary.date
        metric_type := primary.metric_type
        value := (group.map (fun r => r.value * r.confidence)).sum / totalWeight
        unit := primary.unit
        source := primary.source
        confidence := min 1 (totalWeight / (group.length : ℚ))
        external_id := primary.external_id }

/-- Bucket the readings by `(date, metric_type, source)` in first-occurrence
order (the `grouped` dict of `deduplicate_biometrics`). -/
def groupBiometricsByKey (rs : List BiometricReading) :
    List ((ℤ × String × String) × List BiometricReading) :=
  rs.foldl (fun gs r => bucketAdd gs (bioKey r) r) []

/-- Top-level biometric deduplication (`deduplicate_biometrics`): one merged
reading per distinct key. -/
def deduplicateBiometrics (rs : List BiometricReading) : List BiometricReading :=
  if rs.isEmpty then []
  else (groupBiometricsByKey rs).filterMap (fun p => mergeBiometricGroup p.2)

/-- Athlete profile (src/core/models.py `UserProfile`); only the fields the
calorie engine reads. -/
inductive Gender where
  | male
  | female
  deriving DecidableEq, Repr

/-- Athlete profile (src/core/models.py `UserProfile`). -/
structure UserProfile where
  age : ℚ
  gender : Gender
  weight_kg : ℚ
  height_cm : Option ℚ := none
  vo2max : Option ℚ := none
  resting_hr : Option ℚ := none
  max_hr : Option ℚ := none
  deriving DecidableEq, Repr

/-- Tanaka estimate of maximum heart rate (`UserProfile.calculated_max_hr`):
a truthy stored `max_hr` wins, otherwise `int(208 - 0.7 * age)`. -/
def calculatedMaxHr (u : UserProfile) : ℚ :=
  if optQTruthy u.max_hr then u.max_hr.getD 0
  else (pyInt (208 - 0.7 * u.age) : ℚ)

/-- Result of a calorie calculation (src/core/models.py
`CalorieCalculationResult`; the informational `factors` dict is not
modelled). -/
structure CalorieCalculationResult where
  calories : ℤ
  method : String
  confidence : ℚ
  quality_score : ℚ
  deriving DecidableEq, Repr

/-- Base MET value per sport (`_get_base_met`): the `moderate` entry of the
MET table, else its `easy` entry, else 4.0; unknown sports use the default
table (moderate 4.0). -/
def getBaseMet (sport : String) : ℚ :=
  if sport = "Run" then 8 else if sport = "Trail Run" then 8.5
  else if sport = "Virtual Run" then 8 else if sport = "Ride" then 6
  else if sport = "Virtual Ride" then 6 else if sport = "Mountain Bike" then 7
  else if sport = "Swim" then 6 else if sport = "Walk" then 3.5
  else if sport = "Hike" then 4.5 else if sport = "Soccer" then 4
  else if sport = "Basketball" then 4 else if sport = "Tennis" then 4
  else if sport = "Volleyball" then 4 else if sport = "WeightTraining" then 4
  else if sport = "StrengthTraining" then 4 else if sport = "Crossfit" then 8
  else if sport = "Yoga" then 2.5 else if sport = "Pilates" then 4
  else if sport = "Rowing" then 6 else if sport = "Elliptical" then 5
  else if sport = "Stair Stepper" then 6 else 4

/-- Per-sport calorie-per-minute cap table of
`_apply_calorie_validation_caps`, with its conservative default of 10. -/
def maxCaloriesPerMinute (sport : String) : ℚ :=
  if sport = "Soccer" then 12 else if sport = "Basketball" then 12
  else if sport = "Tennis" then 10 else if sport = "Run" then 15
  else if sport = "Ride" then 12 else if sport = "WeightTraining" then 8
  else if sport = "Walk" then 6 else if sport = "Swim" then 10 else 10

/-- Validation caps (`_apply_calorie_validation_caps`): first the per-sport
cap `max_cpm * duration_min` (with `workout.sport or "default"` as the key),
then the absolute ceiling `25 * duration_min`. -/
def applyCalorieValidationCaps (cal : ℚ) (w : Workout) : ℚ :=
  let durationMin := w.duration / 60
  let maxCpm := maxCaloriesPerMinute (if w.sport = "" then "default" else w.sport)
  let maxAllowed := maxCpm * durationMin
  let cal1 := if maxAllowed < cal then maxAllowed else cal
  let absoluteMax := 25 * durationMin
  if absoluteMax < cal1 then absoluteMax else cal1

/-- Keytel et al. heart-rate regression
(`_calculate_from_heart_rate_keytel`): gender-specific closed forms, with or
without VO2max, scaled by duration in minutes, floored at 1. -/
def keytelCalories (w : Workout) (u : UserProfile) : ℚ :=
  let hr := w.heart_rate_avg.getD 0
  let durationMin := w.duration / 60
  let perMin : ℚ :=
    match u.gender with
    | .male =>
      if optQTruthy u.vo2max then
        (-95.7735 + 0.634 * hr + 0.404 * u.vo2max.getD 0 + 0.394 * u.weight_kg
            + 0.271 * u.age) / 4.184
      else
        (-55.0969 + 0.6309 * hr + 0.1988 * u.weight_kg + 0.2017 * u.age) / 4.184
    | .female =>
      if optQTruthy u.vo2max then
        (-59.3954 + 0.45 * hr + 0.380 * u.vo2max.getD 0 + 0.103 * u.weight_kg
            + 0.274 * u.age) / 4.184
      else
        (-20.4022 + 0.4472 * hr + 0.1263 * u.weight_kg + 0.074 * u.age) / 4.184
  max 1 (perMin * durationMin)

/-- Intensity factor from heart-rate reserve and sport
(`_get_intensity_factor`). -/
def getIntensityFactor (w : Workout) (u : UserProfile) : ℚ :=
  if !(optQTruthy w.heart_rate_avg && optQTruthy u.resting_hr) then 1
  else
    let hrAvg := w.heart_rate_avg.getD 0
    let hrRest := u.resting_hr.getD 0
    let hrMax := if optQTruthy u.max_hr then u.max_hr.getD 0
      else hrAvg + (hrAvg - hrRest) * 0.3
    let hrReserve := hrMax - hrRest
    let hrPercent := if 0 < hrReserve then (hrAvg - hrRest) / hrReserve else 0.5
    if w.sport = "Soccer" ∨ w.sport = "Basketball" ∨ w.sport = "Tennis" then
      if hrPercent < 0.6 then 0.8
      else if hrPercent < 0.7 then 1
      else if hrPercent < 0.8 then 1.1
      else 1.2
    else if w.sport = "WeightTraining" ∨ w.sport = "StrengthTraining" then 0.7
    else 0.6 + hrPercent * 0.4

/-- MET estimate adjusted by heart-rate intensity
(`_calculate_met_with_intensity`): requires truthy average heart rate and
resting heart rate; the intensity factor is capped at 1.2.  The source also
computes an unused heart-rate percentage whose zero reserve raises a
`ZeroDivisionError` that the surrounding `except` turns into `None`. -/
def metWithIntensity (w : Workout) (u : UserProfile) : Option ℚ :=
  if optQTruthy w.heart_rate_avg && optQTruthy u.resting_hr then
    if calculatedMaxHr u - u.resting_hr.getD 0 = 0 then none
    else
      let factor := min (getIntensityFactor w u) 1.2
      some (max 1 (getBaseMet w.sport * factor * u.weight_kg * (w.duration / 3600)))
  else none

/-- Estimated work fraction of a strength workout (`_estimate_work_ratio`):
defaults to 0.4; with exercise set counts, rest of 90 seconds per set is
subtracted and the fraction clamped to [0.2, 0.7].  A zero duration raises
`ZeroDivisionError`, caught to keep the default. -/
def estimateWorkFraction (w : Workout) : ℚ :=
  match w.raw_data with
  | some raw =>
    match raw.exerciseSets with
    | some sets =>
      let totalSets : ℚ := ((sets.foldl (fun a b => a + b) 0 : ℕ) : ℚ)
      if 0 < totalSets then
        if w.duration = 0 then 0.4
        else
          let workTime := max (w.duration - totalSets * 90) (w.duration * 0.2)
          max 0.2 (min 0.7 (workTime / w.duration))
      else 0.4
    | none => 0.4
  | none => 0.4

/-- Strength-training specialisation (`_calculate_weight_training`): base MET
over the work-fraction-scaled effective duration, floored at 1. -/
def calculateWeightTraining (w : Workout) (u : UserProfile) : Option ℚ :=
  some (max 1 (getBaseMet w.sport * u.weight_kg * (w.duration / 3600 * estimateWorkFraction w)))

/-- Basic MET estimate (`_calculate_basic_met`), floored at 1. -/
def calculateBasicMet (w : Workout) (u : UserProfile) : Option ℚ :=
  some (max 1 (getBaseMet w.sport * u.weight_kg * (w.duration / 3600)))

/-- Typical speed per sport in meters per second
(`_estimate_duration_from_distance`). -/
def typicalSpeed (sport : String) : ℚ :=
  if sport = "Run" then 2.8 else if sport = "Ride" then 8
  else if sport = "Walk" then 1.4 else if sport = "Swim" then 1
  else if sport = "Soccer" then 2 else if sport = "WeightTraining" then 0.5
  else 2

/-- Distance-based estimate (`_calculate_from_distance`): falsy distance
yields nothing; with positive duration the basic MET formula applies,
otherwise the duration is estimated from distance and typical speed. -/
def calculateFromDistance (w : Workout) (u : UserProfile) : Option ℚ :=
  match w.distance with
  | none => none
  | some d =>
    if d = 0 then none
    else if 0 < w.duration then
      some (max 1 (getBaseMet w.sport * u.weight_kg * (w.duration / 3600)))
    else
      let estimated := d / typicalSpeed w.sport
      if estimated ≠ 0 then
        some (max 1 (getBaseMet w.sport * u.weight_kg * (estimated / 3600)))
      else none

/-- Environmental inputs of the calorie engine
(`_apply_environmental_factors`). -/
structure EnvData where
  temperature_c : Option ℚ := none
  humidity_percent : Option ℚ := none
  deriving DecidableEq, Repr

/-- Environmental adjustments: +5 percent above 25 degrees, +3 percent below
5 degrees, +2 percent above 70 percent humidity. -/
def applyEnvironmentalFactors (cal : ℚ) (env : EnvData) : ℚ :=
  let cal1 :=
    match env.temperature_c with
    | some t => if 25 < t then cal * 1.05 else if t < 5 then cal * 1.03 else cal
    | none => cal
  match env.humidity_percent with
  | some h => if 70 < h then cal1 * 1.02 else cal1
  | none => cal1

/-- Weight read from raw payloads (`get_actual_weight_from_sources`
priorities 1): a positive `raw_data["athlete"]["weight"]`, else a positive
`raw_data["weight"]`. -/
def weightFromBody (raw : RawData) : Option ℚ :=
  match raw.bodyWeight with
  | some bw => if 0 < bw then some bw else none
  | none => none

/-- Weight read from raw payloads, athlete entry first. -/
def weightFromRaw (raw : RawData) : Option ℚ :=
  match raw.athleteWeight with
  | some aw => if 0 < aw then some aw else weightFromBody raw
  | none => weightFromBody raw

/-- Actual athlete weight (`get_actual_weight_from_sources`): raw payload
first, then the most recent stored VeSync weight reading (`dbWeight`
parameterises the database lookup; `none` models both an absent database and
an absent reading). -/
def getActualWeightFromSources (dbWeight : Option ℚ) (w : Workout) : Option ℚ :=
  match w.raw_data with
  | some raw =>
    match weightFromRaw raw with
    | some x => some x
    | none => dbWeight
  | none => dbWeight

/-- Truthiness of the kilojoules entry of the raw payload
(`workout.raw_data and workout.raw_data.get("kilojoules")`). -/
def rawKilojoulesTruthy (o : Option RawData) : Bool :=
  match o with
  | some raw => optQTruthy raw.kilojoules
  | none => false

/-- Kilojoules value of the raw payload, 0 when absent. -/
def kilojoulesOf (o : Option RawData) : ℚ :=
  match o with
  | some raw => raw.kilojoules.getD 0
  | none => 0

/-- Tail of the cascade after the heart-rate and intensity methods: basic MET
(method 6), then the distance estimate, then the failure result.  In the
source the basic MET method always yields at least 1, so the later branches
are unreachable; they are embedded nonetheless. -/
def cascadeBasicAndBelow (w : Workout) (u : UserProfile) : CalorieCalculationResult :=
  match calculateBasicMet w u with
  | some cal =>
    { calories := pyInt (applyCalorieValidationCaps cal w), method := "basic_met",
      confidence := 0.60, quality_score := 0.60 }
  | none =>
    match calculateFromDistance w u with
    | some cal =>
      { calories := pyInt (applyCalorieValidationCaps cal w), method := "distance_estimated",
        confidence := 0.50, quality_score := 0.50 }
    | none => { calories := 0, method := "failed", confidence := 0, quality_score := 0 }

/-- Cascade from the sport-specific strength method (method 5) downward. -/
def cascadeWeightTrainingAndBelow (w : Workout) (u : UserProfile) : CalorieCalculationResult :=
  if w.sport = "WeightTraining" ∨ w.sport = "StrengthTraining" then
    match calculateWeightTraining w u with
    | some cal =>
      { calories := pyInt (applyCalorieValidationCaps cal w),
        method := "weight_training_specialized", confidence := 0.70, quality_score := 0.70 }
    | none => cascadeBasicAndBelow w u
  else cascadeBasicAndBelow w u

/-- Profile actually used by the cascade: the caller's profile with the
weight replaced by the best available measured weight (`calculate_enhanced`
lines 92-97). -/
def resolveProfile (dbWeight : Option ℚ) (w : Workout) (u0 : UserProfile) : UserProfile :=
  match getActualWeightFromSources dbWeight w with
  | some aw => { u0 with weight_kg := aw }
  | none => u0

/-- Cascade body of `calculate_enhanced`, after the profile weight has been
resolved.  The validation caps are applied by methods 3 through 7 but not by
the direct method (1) or the kilojoules conversion (2). -/
def calculateEnhancedCore (w : Workout) (u : UserProfile)
    (env : Option EnvData) : CalorieCalculationResult :=
  if optIntTruthy w.calories && decide ((0.9 : ℚ) < w.data_quality_score) then
    { calories := w.calories.getD 0, method := "direct_strava",
      confidence := w.data_quality_score, quality_score := w.data_quality_score }
  else if rawKilojoulesTruthy w.raw_data then
    { calories := pyInt (kilojoulesOf w.raw_data / 4.184), method := "kilojoules_conversion",
      confidence := 0.85, quality_score := 0.85 }
  else if optQTruthy w.heart_rate_avg && decide ((0 : ℚ) < w.heart_rate_avg.getD 0) then
    let cal0 := keytelCalories w u
    let cal1 := match env with | some e => applyEnvironmentalFactors cal0 e | none => cal0
    { calories := pyInt (applyCalorieValidationCaps cal1 w), method := "heart_rate_keytel",
      confidence := 0.83, quality_score := 0.83 }
  else if w.duration ≠ 0 && w.sport ≠ "" then
    match metWithIntensity w u with
    | some cal =>
      { calories := pyInt (applyCalorieValidationCaps cal w), method := "met_intensity_adjusted",
        confidence := 0.75, quality_score := 0.75 }
    | none => cascadeWeightTrainingAndBelow w u
  else cascadeWeightTrainingAndBelow w u

/-- Full calorie cascade (`EnhancedCalorieCalculator.calculate_enhanced`):
resolve the profile weight, then run the method cascade. -/
def calculateEnhanced (dbWeight : Option ℚ) (w : Workout) (u0 : UserProfile)
    (env : Option EnvData) : CalorieCalculationResult :=
  calculateEnhancedCore w (resolveProfile dbWeight w u0) env

/-- Per-athlete per-sport calibration record
(src/core/models.py `AthleteCalorieCalibration` row). -/
structure CalibrationRecord where
  calibration_factor : ℚ
  sample_count : ℕ
  deriving DecidableEq, Repr

/-- Stored calibration factor (`_get_calibration_factor`): the stored row, or
1.0 when none exists. -/
def getCalibrationFactor (store : Option CalibrationRecord) : ℚ :=
  match store with
  | some r => r.calibration_factor
  | none => 1

/-- Calibration update (`_update_calibration`): nonpositive estimates are
ignored; the device/estimate quotient outside [0.5, 2.0] is discarded as an
outlier; otherwise the record is created with the quotient and count 1, or
updated by the incremental weighted average. -/
def updateCalibration (store : Option CalibrationRecord) (actualCalories predictedCalories : ℤ) :
    Option CalibrationRecord :=
  if predictedCalories ≤ 0 then store
  else
    let r : ℚ := (actualCalories : ℚ) / (predictedCalories : ℚ)
    if r < 0.5 ∨ 2 < r then store
    else
      match store with
      | none => some { calibration_factor := r, sample_count := 1 }
      | some old =>
        some
          { calibration_factor :=
              (old.calibration_factor * (old.sample_count : ℚ) + r) / ((old.sample_count : ℚ) + 1),
            sample_count := old.sample_count + 1 }

/-- Per-athlete calculation
(`MultiAthleteCalorieCalculator.calculate_for_athlete`): run the enhanced
cascade, multiply by the stored calibration factor when it differs from 1,
then, when the workout carried truthy device calories and the method was not
the direct one, feed the pair into the calibration store.  Returns the result
together with the new store contents. -/
def calculateForAthlete (dbWeight : Option ℚ) (store : Option CalibrationRecord)
    (w : Workout) (u : UserProfile) : CalorieCalculationResult × Option CalibrationRecord :=
  let factor := getCalibrationFactor store
  let result0 := calculateEnhanced dbWeight w u none
  let result :=
    if factor ≠ 1 then { result0 with calories := pyInt ((result0.calories : ℚ) * factor) }
    else result0
  if optIntTruthy w.calories && result.method ≠ "direct_strava" then
    (result, updateCalibration store (w.calories.getD 0) result.calories)
  else (result, store)

/-- Outcome of one underlying request attempt, as seen by
`BaseConnector.make_request`. -/
inductive RequestOutcome where
  | success : RequestOutcome
  | rateLimited : ℚ → RequestOutcome
  | apiFailure : RequestOutcome
  | authFailure : RequestOutcome
  | genericFailure : RequestOutcome
  deriving DecidableEq, Repr

/-- Error surfaced by `make_request`: a re-raised `RateLimitError`,
`APIError` or `AuthenticationError`, or the wrapping `APIError` raised after
exhausting the generic retries. -/
inductive RequestError where
  | rateLimit : RequestError
  | api : RequestError
  | auth : RequestError
  | wrappedApi : RequestError
  deriving DecidableEq, Repr

/-- Final outcome of `make_request`: either the request returned, or an
error was raised. -/
inductive RequestResult where
  | ok : RequestResult
  | err : RequestError → RequestResult
  deriving DecidableEq, Repr

/-- Trace of one `make_request` invocation: final outcome, number of
attempts actually made, and the sleep durations of the retries. -/
structure RequestTrace where
  outcome : RequestResult
  attempts : ℕ
  sleeps : List ℚ
  deriving DecidableEq, Repr

/-- Loop body of `make_request` (`for attempt in range(3)`), from a given
attempt index.  `outcomes i` is the result of the i-th underlying call;
`rlJitterFrac i` is the `random.uniform(0.1, 0.3)` draw of a rate-limit wait
(`handle_rate_limit`); `backoffJitter i` is the `random.uniform(0, 1)` draw
of a generic backoff.  Rate limits are retried after
`retry_after * (1 + jitter)`; `APIError` and `AuthenticationError` are
re-raised immediately; other exceptions back off `2 ^ attempt + jitter`
(base delay 1, doubling), and after the third failure a wrapping `APIError`
is raised. -/
def makeRequestFrom (outcomes : ℕ → RequestOutcome) (rlJitterFrac backoffJitter : ℕ → ℚ) :
    (remaining : ℕ) → (attempt : ℕ) → (sleeps : List ℚ) → RequestTrace
  | 0, attempt, sleeps => ⟨.err .wrappedApi, attempt, sleeps⟩
  | remaining + 1, attempt, sleeps =>
    match outcomes attempt with
    | .success => ⟨.ok, attempt + 1, sleeps⟩
    | .rateLimited retryAfter =>
      if 0 < remaining then
        makeRequestFrom outcomes rlJitterFrac backoffJitter remaining (attempt + 1)
          (sleeps ++ [retryAfter + rlJitterFrac attempt * retryAfter])
      else ⟨.err .rateLimit, attempt + 1, sleeps⟩
    | .apiFailure => ⟨.err .api, attempt + 1, sleeps⟩
    | .authFailure => ⟨.err .auth, attempt + 1, sleeps⟩
    | .genericFailure =>
      if 0 < remaining then
        makeRequestFrom outcomes rlJitterFrac backoffJitter remaining (attempt + 1)
          (sleeps ++ [2 ^ attempt + backoffJitter attempt])
      else ⟨.err .wrappedApi, attempt + 1, sleeps⟩

/-- Rate-limited request executor (`BaseConnector.make_request`) with
`max_retries = 3` and `base_delay = 1`.  `remaining = max_retries - attempt`
counts the attempts left, so `0 < remaining` inside the loop body is the
source's `attempt < max_retries - 1` retry condition. -/
def makeRequest (outcomes : ℕ → RequestOutcome) (rlJitterFrac backoffJitter : ℕ → ℚ) :
    RequestTrace :=
  makeRequestFrom outcomes rlJitterFrac backoffJitter 3 0 []

/-- Outcome of one connector's authenticate-and-fetch phase: records, or the
message of the exception it raised. -/
inductive FetchOutcome where
  | fetched : List Workout → List BiometricReading → FetchOutcome
  | excRaised : String → FetchOutcome
  deriving DecidableEq

/-- Behaviour of one connector during a sync cycle: its source name and
either the fetched records or the message of the exception raised inside
authenticate/fetch. -/
structure ConnectorBehavior where
  source : String
  outcome : FetchOutcome
  deriving DecidableEq

/-- Result record of `BaseConnector.sync_data`. -/
structure SyncResult where
  source : String
  workouts : List Workout
  biometrics : List BiometricReading
  success : Bool
  error : Option String
  deriving DecidableEq, Repr

/-- Sync boundary (`BaseConnector.sync_data`): every exception raised by
authentication or fetching is caught and turned into a failure result; a
success carries the fetched records. -/
def syncData (c : ConnectorBehavior) : SyncResult :=
  match c.outcome with
  | .fetched ws bs => ⟨c.source, ws, bs, true, none⟩
  | .excRaised e => ⟨c.source, [], [], false, some e⟩

/-- Summary returned by `DataIngestionOrchestrator.sync_all_sources`. -/
structure SyncSummary where
  successful_syncs : ℕ
  failed_syncs : ℕ
  total_workouts : ℕ
  total_biometrics : ℕ
  source_results : List (String × SyncResult)
  merged_workouts : List Workout
  merged_biometrics : List BiometricReading

/-- Orchestrator sync (`sync_all_sources`): every connector is synced (the
boundary never raises, so `asyncio.gather` yields only result records and the
`isinstance(result, Exception)` branch is dead); records of successful
sources are concatenated, deduplicated and persisted; every source's result
record is stored in `source_results` under its name. -/
def syncAllSources (close : Coord → Coord → Bool) (connectors : List ConnectorBehavior) :
    SyncSummary :=
  let results := connectors.map syncData
  let sourceResults := results.foldl (fun d r => dictInsert d r.source r) []
  let allWorkouts := results.foldl (fun acc r => if r.success then acc ++ r.workouts else acc) []
  let allBiometrics :=
    results.foldl (fun acc r => if r.success then acc ++ r.biometrics else acc) []
  { successful_syncs := results.length
    failed_syncs := 0
    total_workouts := allWorkouts.length
    total_biometrics := allBiometrics.length
    source_results := sourceResults
    merged_workouts := if allWorkouts.isEmpty then [] else deduplicateWorkouts close allWorkouts
    merged_biometrics :=
      if allBiometrics.isEmpty then [] else deduplicateBiometrics allBiometrics }

/-! ## Helper lemmas -/

/-- Truncation toward zero of a nonnegative rational is bounded by any upper
bound of that rational. -/
lemma pyInt_le_of_le {q B : ℚ} (h0 : 0 ≤ q) (h : q ≤ B) : (pyInt q : ℚ) ≤ B := by
  unfold pyInt
  rw [if_pos h0]
  exact le_trans (Int.floor_le q) h

lemma maxCaloriesPerMinute_nonneg (s : String) : 0 ≤ maxCaloriesPerMinute s := by
  unfold maxCaloriesPerMinute
  split_ifs <;> norm_num

lemma applyCalorieValidationCaps_le_sport (cal : ℚ) (w : Workout) :
    applyCalorieValidationCaps cal w ≤
      maxCaloriesPerMinute (if w.sport = "" then "default" else w.sport) * (w.duration / 60) := by
  unfold applyCalorieValidationCaps
  dsimp only
  split_ifs <;> linarith

lemma applyCalorieValidationCaps_le_abs (cal : ℚ) (w : Workout) :
    applyCalorieValidationCaps cal w ≤ 25 * (w.duration / 60) := by
  unfold applyCalorieValidationCaps
  dsimp only
  split_ifs <;> linarith

lemma applyCalorieValidationCaps_nonneg {cal : ℚ} (w : Workout) (h0 : 0 ≤ cal)
    (hd : 0 ≤ w.duration) : 0 ≤ applyCalorieValidationCaps cal w := by
  have h1 : ∀ s, 0 ≤ maxCaloriesPerMinute s * (w.duration / 60) := fun s =>
    mul_nonneg (maxCaloriesPerMinute_nonneg s) (by positivity)
  have h2 : (0 : ℚ) ≤ 25 * (w.duration / 60) := by positivity
  unfold applyCalorieValidationCaps
  dsimp only
  split_ifs <;> linarith [h1 "default", h1 w.sport]

/-- Both cap bounds for a capped-and-truncated cascade output. -/
lemma cappedCalories_bounds {cal : ℚ} (w : Workout) (h0 : 0 ≤ cal) (hd : 0 ≤ w.duration) :
    ((pyInt (applyCalorieValidationCaps cal w) : ℚ) ≤
        maxCaloriesPerMinute (if w.sport = "" then "default" else w.sport) * (w.duration / 60)) ∧
    ((pyInt (applyCalorieValidationCaps cal w) : ℚ) ≤ 25 * (w.duration / 60)) :=
  ⟨pyInt_le_of_le (applyCalorieValidationCaps_nonneg w h0 hd)
      (applyCalorieValidationCaps_le_sport cal w),
    pyInt_le_of_le (applyCalorieValidationCaps_nonneg w h0 hd)
      (applyCalorieValidationCaps_le_abs cal w)⟩

lemma applyEnvironmentalFactors_nonneg {cal : ℚ} (e : EnvData) (h : 0 ≤ cal) :
    0 ≤ applyEnvironmentalFactors cal e := by
  obtain ⟨t, hm⟩ := e
  unfold applyEnvironmentalFactors
  cases t <;> cases hm <;> dsimp only <;> first
  | linarith
  | (split_ifs <;> linarith)

lemma keytelCalories_nonneg (w : Workout) (u : UserProfile) : 0 ≤ keytelCalories w u := by
  unfold keytelCalories
  exact le_trans (by norm_num) (le_max_left 1 _)

/-! ## C5 -/

/-- C5: a calibration event with ratio outside [0.5, 2.0] leaves the stored
record unchanged; within the range, a missing record is created with
factor = ratio and count 1, and an existing record is updated by the
incremental weighted average with the count incremented; feeding N events of
one constant in-range ratio drives (indeed pins) the stored factor to that
ratio. -/
theorem calibrationUpdate_spec (store : Option CalibrationRecord) (a p : ℤ) (hp : 0 < p) :
    (((a : ℚ) / (p : ℚ) < 0.5 ∨ 2 < (a : ℚ) / (p : ℚ)) →
        updateCalibration store a p = store) ∧
    ((0.5 : ℚ) ≤ (a : ℚ) / (p : ℚ) → (a : ℚ) / (p : ℚ) ≤ 2 →
      (updateCalibration none a p = some ⟨(a : ℚ) / (p : ℚ), 1⟩ ∧
       (∀ f : ℚ, ∀ n : ℕ, updateCalibration (some ⟨f, n⟩) a p =
          some ⟨(f * (n : ℚ) + (a : ℚ) / (p : ℚ)) / ((n : ℚ) + 1), n + 1⟩) ∧
       (∀ N : ℕ, 1 ≤ N →
          (fun s => updateCalibration s a p)^[N] none = some ⟨(a : ℚ) / (p : ℚ), N⟩))) := by
  have hple : ¬ p ≤ 0 := by omega
  constructor
  · intro hout
    unfold updateCalibration
    rw [if_neg hple, if_pos hout]
  · intro hlo hhi
    have hin : ¬ ((a : ℚ) / (p : ℚ) < 0.5 ∨ 2 < (a : ℚ) / (p : ℚ)) := by
      push_neg
      exact ⟨hlo, hhi⟩
    refine ⟨?_, ?_, ?_⟩
    · unfold updateCalibration
      rw [if_neg hple, if_neg hin]
    · intro f n
      unfold updateCalibration
      rw [if_neg hple, if_neg hin]
    · intro N hN
      induction N with
      | zero => omega
      | succ n ih =>
        rcases Nat.eq_zero_or_pos n with hn | hn
        · subst hn
          rw [Function.iterate_succ_apply', Function.iterate_zero_apply]
          unfold updateCalibration
          rw [if_neg hple, if_neg hin]
        · have hrec := ih hn
          rw [Function.iterate_succ_apply', hrec]
          unfold updateCalibration
          rw [if_neg hple, if_neg hin]
          have hne : ((n : ℚ) + 1) ≠ 0 := by positivity
          field_simp
          ring

/-- Witness for C5 at ratio 3/2 = 1.5: an in-range event updates an existing
record by the incremental weighted average. -/
theorem calibrationUpdate_spec_witness :
    updateCalibration (some ⟨1, 1⟩) 3 2 =
      some ⟨(1 * ((1 : ℕ) : ℚ) + (3 : ℚ) / (2 : ℚ)) / (((1 : ℕ) : ℚ) + 1), 1 + 1⟩ :=
  ((calibrationUpdate_spec (some ⟨1, 1⟩) 3 2 (by norm_num)).2 (by norm_num) (by norm_num)).2.1 1 1

lemma zero_le_max_one (x : ℚ) : (0 : ℚ) ≤ max 1 x :=
  le_trans zero_le_one (le_max_left 1 x)

lemma metWithIntensity_nonneg {w : Workout} {u : UserProfile} {cal : ℚ}
    (h : metWithIntensity w u = some cal) : 0 ≤ cal := by
  unfold metWithIntensity at h
  split_ifs at h
  all_goals dsimp only at h
  all_goals
    first
      | exact Option.noConfusion h
      | (rw [Option.some_inj] at h
         rw [← h]
         exact zero_le_max_one _)

lemma cascadeBasicAndBelow_bounds (w : Workout) (u : UserProfile) (hd : 0 ≤ w.duration) :
    (((cascadeBasicAndBelow w u).calories : ℚ) ≤
        maxCaloriesPerMinute (if w.sport = "" then "default" else w.sport) * (w.duration / 60)) ∧
    (((cascadeBasicAndBelow w u).calories : ℚ) ≤ 25 * (w.duration / 60)) := by
  unfold cascadeBasicAndBelow calculateBasicMet
  dsimp only
  exact cappedCalories_bounds w (zero_le_max_one _) hd

lemma cascadeWeightTrainingAndBelow_bounds (w : Workout) (u : UserProfile) (hd : 0 ≤ w.duration) :
    (((cascadeWeightTrainingAndBelow w u).calories : ℚ) ≤
        maxCaloriesPerMinute (if w.sport = "" then "default" else w.sport) * (w.duration / 60)) ∧
    (((cascadeWeightTrainingAndBelow w u).calories : ℚ) ≤ 25 * (w.duration / 60)) := by
  unfold cascadeWeightTrainingAndBelow
  by_cases hs : w.sport = "WeightTraining" ∨ w.sport = "StrengthTraining"
  · rw [if_pos hs]
    unfold calculateWeightTraining
    dsimp only
    exact cappedCalories_bounds w (zero_le_max_one _) hd
  · rw [if_neg hs]
    exact cascadeBasicAndBelow_bounds w u hd

/-- Workout exhibiting the missing cap on the kilojoules-conversion method: a
one-minute run whose raw payload reports 41840 kilojoules. -/
def kjWorkout : Workout :=
  { workout_id := "kj", start_time := 0, end_time := 60, duration := 60, sport := "Run",
    sport_category := "running", source := "strava",
    raw_data := some { kilojoules := some 41840 } }

/-- Profile used by concrete calorie examples. -/
def sampleProfile : UserProfile :=
  { age := 30, gender := .male, weight_kg := 70 }

/-- C1 counterexample: the kilojoules-conversion method (cascade method 2)
returns 10000 kilocalories for a one-minute workout, far above the absolute
ceiling of 25 calories per minute times one minute, because
`calculate_enhanced` applies `_apply_calorie_validation_caps` only in methods
3 through 7, not in method 2. -/
theorem calorieCaps_counterexample :
    (calculateEnhanced none kjWorkout sampleProfile none).method = "kilojoules_conversion" ∧
    (calculateEnhanced none kjWorkout sampleProfile none).calories = 10000 ∧
    ¬ (((calculateEnhanced none kjWorkout sampleProfile none).calories : ℚ) ≤
        25 * (kjWorkout.duration / 60)) := by
  have hval : calculateEnhanced none kjWorkout sampleProfile none =
      { calories := 10000, method := "kilojoules_conversion",
        confidence := 0.85, quality_score := 0.85 } := by
    unfold calculateEnhanced calculateEnhancedCore resolveProfile getActualWeightFromSources
      weightFromRaw weightFromBody rawKilojoulesTruthy kilojoulesOf kjWorkout sampleProfile
      optIntTruthy optQTruthy pyInt
    norm_num
  rw [hval]
  unfold kjWorkout
  norm_num

/-- C1 amended: for every cascade output whose method is neither the direct
device-reported method (1) nor the kilojoules conversion (2), the returned
calories are bounded by the configured per-sport calories-per-minute cap
times the duration in minutes, and by the absolute ceiling of 25 calories per
minute times the duration in minutes (durations are nonnegative by the data
model invariant). -/
theorem calorieCaps_amended (dbW : Option ℚ) (w : Workout) (u0 : UserProfile)
    (env : Option EnvData) (hd : 0 ≤ w.duration)
    (hm1 : (calculateEnhanced dbW w u0 env).method ≠ "direct_strava")
    (hm2 : (calculateEnhanced dbW w u0 env).method ≠ "kilojoules_conversion") :
    (((calculateEnhanced dbW w u0 env).calories : ℚ) ≤
        maxCaloriesPerMinute (if w.sport = "" then "default" else w.sport) *
          (w.duration / 60)) ∧
    (((calculateEnhanced dbW w u0 env).calories : ℚ) ≤ 25 * (w.duration / 60)) := by
  have hcore : calculateEnhanced dbW w u0 env =
      calculateEnhancedCore w (resolveProfile dbW w u0) env := rfl
  rw [hcore] at hm1 hm2 ⊢
  set u := resolveProfile dbW w u0 with hu
  unfold calculateEnhancedCore at hm1 hm2 ⊢
  by_cases h1 : (optIntTruthy w.calories && decide ((0.9 : ℚ) < w.data_quality_score)) = true
  · rw [if_pos h1] at hm1
    exact absurd rfl hm1
  · rw [if_neg h1] at hm1 hm2 ⊢
    by_cases h2 : rawKilojoulesTruthy w.raw_data = true
    · rw [if_pos h2] at hm2
      exact absurd rfl hm2
    · rw [if_neg h2] at hm1 hm2 ⊢
      by_cases h3 : (optQTruthy w.heart_rate_avg &&
          decide ((0 : ℚ) < w.heart_rate_avg.getD 0)) = true
      · rw [if_pos h3]
        dsimp only
        refine cappedCalories_bounds w ?_ hd
        cases env with
        | none => exact keytelCalories_nonneg w u
        | some e => exact applyEnvironmentalFactors_nonneg e (keytelCalories_nonneg w u)
      · rw [if_neg h3]
        by_cases h4 : (w.duration ≠ 0 && w.sport ≠ "") = true
        · rw [if_pos h4]
          cases hmet : metWithIntensity w u with
          | none => exact cascadeWeightTrainingAndBelow_bounds w u hd
          | some cal =>
            dsimp only
            exact cappedCalories_bounds w (metWithIntensity_nonneg hmet) hd
        · rw [if_neg h4]
          exact cascadeWeightTrainingAndBelow_bounds w u hd

/-- Workout used by the C1 witness: one hour of running with no device
calories, no kilojoules and no heart rate, so the cascade lands in the
basic-MET method. -/
def c1WitnessWorkout : Workout :=
  { workout_id := "x", start_time := 0, end_time := 3600, duration := 3600,
    sport := "Run", sport_category := "running", source := "garmin" }

lemma c1WitnessWorkout_value :
    calculateEnhanced none c1WitnessWorkout sampleProfile none =
      { calories := 560, method := "basic_met", confidence := 3/5, quality_score := 3/5 } := by
  simp [calculateEnhanced, calculateEnhancedCore, resolveProfile,
    getActualWeightFromSources, c1WitnessWorkout, sampleProfile, optIntTruthy, optQTruthy,
    rawKilojoulesTruthy, metWithIntensity, cascadeWeightTrainingAndBelow, cascadeBasicAndBelow,
    calculateBasicMet, getBaseMet, applyCalorieValidationCaps, maxCaloriesPerMinute, pyInt]
  norm_num

/-- Witness for C1 amended at a basic-MET workout (no device calories, no
kilojoules, no heart rate). -/
theorem calorieCaps_amended_witness :
    (0 : ℚ) ≤ c1WitnessWorkout.duration ∧
    (((calculateEnhanced none c1WitnessWorkout sampleProfile none).calories : ℚ) ≤
        maxCaloriesPerMinute
            (if c1WitnessWorkout.sport = "" then "default" else c1WitnessWorkout.sport) *
          (c1WitnessWorkout.duration / 60)) ∧
    (((calculateEnhanced none c1WitnessWorkout sampleProfile none).calories : ℚ) ≤
        25 * (c1WitnessWorkout.duration / 60)) := by
  have h := calorieCaps_amended none c1WitnessWorkout sampleProfile none
    (by norm_num [c1WitnessWorkout])
    (by rw [c1WitnessWorkout_value]; simp)
    (by rw [c1WitnessWorkout_value]; simp)
  exact ⟨by norm_num [c1WitnessWorkout], h.1, h.2⟩

/-! ## C2 -/

/-- Workout for the C2 claim: device-reported 500 calories at quality
score 0.95. -/
def directWorkout : Workout :=
  { workout_id := "d", start_time := 0, end_time := 2520, duration := 2520, sport := "Run",
    sport_category := "running", source := "strava", calories := some 500,
    data_quality_score := 0.95 }

/-- C2 counterexample: with a stored calibration factor of 2 for this
athlete and sport, the per-athlete calculation multiplies even the
device-reported direct result by the factor and returns 1000 instead of the
device value 500 -- `calculate_for_athlete` applies the factor before
checking the method; only the calibration update is skipped for direct
results. -/
theorem calorieDirect_counterexample :
    directWorkout.calories = some 500 ∧
    (0.9 : ℚ) < directWorkout.data_quality_score ∧
    (calculateForAthlete none (some ⟨2, 5⟩) directWorkout sampleProfile).1.method =
      "direct_strava" ∧
    (calculateForAthlete none (some ⟨2, 5⟩) directWorkout sampleProfile).1.calories = 1000 := by
  have hval : calculateForAthlete none (some ⟨2, 5⟩) directWorkout sampleProfile =
      ({ calories := 1000, method := "direct_strava", confidence := 0.95,
          quality_score := 0.95 },
        some ⟨2, 5⟩) := by
    simp [calculateForAthlete, calculateEnhanced, calculateEnhancedCore, resolveProfile,
      getActualWeightFromSources, directWorkout, sampleProfile, optIntTruthy,
      getCalibrationFactor, pyInt]
    norm_num
  rw [hval]
  refine ⟨rfl, by norm_num [directWorkout], rfl, rfl⟩

/-- C2 amended: a workout with a truthy device calorie value and quality
score above 0.9 makes the plain cascade return exactly the device calories
with the direct method and confidence equal to the quality score; the
per-athlete calculation also selects the direct method with that confidence,
but multiplies the calories by the stored calibration factor when that factor
differs from 1; the calibration store is left unchanged (the update, not the
application, is skipped for direct results). -/
theorem calorieDirect_amended (dbW : Option ℚ) (store : Option CalibrationRecord)
    (w : Workout) (u : UserProfile) (env : Option EnvData)
    (hcal : optIntTruthy w.calories = true)
    (hq : (0.9 : ℚ) < w.data_quality_score) :
    calculateEnhanced dbW w u env =
      { calories := w.calories.getD 0, method := "direct_strava",
        confidence := w.data_quality_score, quality_score := w.data_quality_score } ∧
    (calculateForAthlete dbW store w u).1.method = "direct_strava" ∧
    (calculateForAthlete dbW store w u).1.confidence = w.data_quality_score ∧
    (calculateForAthlete dbW store w u).1.calories =
      (if getCalibrationFactor store = 1 then w.calories.getD 0
        else pyInt ((w.calories.getD 0 : ℚ) * getCalibrationFactor store)) ∧
    (calculateForAthlete dbW store w u).2 = store := by
  have hb : (optIntTruthy w.calories && decide ((0.9 : ℚ) < w.data_quality_score)) = true := by
    rw [hcal, decide_eq_true hq]
    rfl
  have hdirect : ∀ env2, calculateEnhanced dbW w u env2 =
      { calories := w.calories.getD 0, method := "direct_strava",
        confidence := w.data_quality_score, quality_score := w.data_quality_score } := by
    intro env2
    unfold calculateEnhanced calculateEnhancedCore
    rw [if_pos hb]
  have hfa : calculateForAthlete dbW store w u =
      ((if getCalibrationFactor store = 1 then
          { calories := w.calories.getD 0, method := "direct_strava",
            confidence := w.data_quality_score, quality_score := w.data_quality_score }
        else
          { calories := pyInt ((w.calories.getD 0 : ℚ) * getCalibrationFactor store),
            method := "direct_strava",
            confidence := w.data_quality_score, quality_score := w.data_quality_score }),
        store) := by
    unfold calculateForAthlete
    dsimp only
    rw [hdirect none]
    by_cases hf : getCalibrationFactor store = 1
    · simp [hf]
    · simp [hf]
  refine ⟨hdirect env, ?_, ?_, ?_, ?_⟩ <;> rw [hfa] <;> by_cases hf : getCalibrationFactor store = 1 <;>
    simp [hf]

/-- Witness for C2 amended at the concrete direct workout with an empty
calibration store. -/
theorem calorieDirect_amended_witness :
    calculateEnhanced none directWorkout sampleProfile none =
      { calories := directWorkout.calories.getD 0, method := "direct_strava",
        confidence := directWorkout.data_quality_score,
        quality_score := directWorkout.data_quality_score } ∧
    (calculateForAthlete none none directWorkout sampleProfile).1.method = "direct_strava" ∧
    (calculateForAthlete none none directWorkout sampleProfile).1.confidence =
      directWorkout.data_quality_score ∧
    (calculateForAthlete none none directWorkout sampleProfile).1.calories =
      (if getCalibrationFactor none = 1 then directWorkout.calories.getD 0
        else pyInt ((directWorkout.calories.getD 0 : ℚ) * getCalibrationFactor none)) ∧
    (calculateForAthlete none none directWorkout sampleProfile).2 = none :=
  calorieDirect_amended none none directWorkout sampleProfile none (by rfl)
    (by norm_num [directWorkout])

/-! ## C3 -/

/-- C3 counterexample: a call that fails with `APIError` is surfaced after a
single attempt with no backoff sleep -- `make_request` re-raises `APIError`
immediately instead of retrying it. -/
theorem apiRetry_counterexample :
    makeRequest (fun _ => RequestOutcome.apiFailure) (fun _ => 0) (fun _ => 0) =
      { outcome := .err .api, attempts := 1, sleeps := [] } ∧
    (makeRequest (fun _ => RequestOutcome.apiFailure) (fun _ => 0) (fun _ => 0)).attempts ≠ 3 :=
  ⟨rfl, by decide⟩

/-- C3 amended: `APIError` and `AuthenticationError` both propagate
immediately after one attempt with no backoff; only failures outside those
classes (and rate limits, separately) are retried -- generic failures with
exponential backoff (base delay 1 doubling per attempt plus jitter) up to 3
attempts, after which a wrapping `APIError` is surfaced. -/
theorem makeRequest_retryPolicy (outcomes : ℕ → RequestOutcome)
    (rlJ boJ : ℕ → ℚ) :
    (outcomes 0 = RequestOutcome.apiFailure →
      makeRequest outcomes rlJ boJ = { outcome := .err .api, attempts := 1, sleeps := [] }) ∧
    (outcomes 0 = RequestOutcome.authFailure →
      makeRequest outcomes rlJ boJ = { outcome := .err .auth, attempts := 1, sleeps := [] }) ∧
    ((∀ i < 3, outcomes i = RequestOutcome.genericFailure) →
      makeRequest outcomes rlJ boJ =
        { outcome := .err .wrappedApi, attempts := 3,
          sleeps := [2 ^ 0 + boJ 0, 2 ^ 1 + boJ 1] }) ∧
    (outcomes 0 = RequestOutcome.genericFailure → outcomes 1 = RequestOutcome.success →
      makeRequest outcomes rlJ boJ =
        { outcome := .ok, attempts := 2, sleeps := [2 ^ 0 + boJ 0] }) := by
  refine ⟨?_, ?_, ?_, ?_⟩
  · intro h
    simp [makeRequest, makeRequestFrom, h]
  · intro h
    simp [makeRequest, makeRequestFrom, h]
  · intro h
    simp [makeRequest, makeRequestFrom, h 0 (by norm_num), h 1 (by norm_num), h 2 (by norm_num)]
  · intro h0 h1
    simp [makeRequest, makeRequestFrom, h0, h1]

/-- Witness for C3 amended: the all-generic-failures oracle exhausts the
3 attempts with doubling backoff. -/
theorem makeRequest_retryPolicy_witness :
    makeRequest (fun _ => RequestOutcome.genericFailure) (fun _ => 0) (fun _ => 1/2) =
      { outcome := .err .wrappedApi, attempts := 3,
        sleeps := [2 ^ 0 + (1 : ℚ)/2, 2 ^ 1 + (1 : ℚ)/2] } :=
  (makeRequest_retryPolicy (fun _ => RequestOutcome.genericFailure) (fun _ => 0)
      (fun _ => 1/2)).2.2.1 (fun _ _ => rfl)

/-! ## Maximum and permutation lemmas -/

instance ratLeAntisymm : Std.Antisymm (fun (a b : ℚ) => a ≤ b) :=
  ⟨fun h1 h2 => le_antisymm h1 h2⟩

instance intLeAntisymm : Std.Antisymm (fun (a b : ℤ) => a ≤ b) :=
  ⟨fun h1 h2 => le_antisymm h1 h2⟩

lemma listMaxQ_eq_some_iff {l : List ℚ} {a : ℚ} :
    listMaxQ l = some a ↔ a ∈ l ∧ ∀ b ∈ l, b ≤ a := by
  unfold listMaxQ
  exact List.max?_eq_some_iff (fun x => le_refl x) (fun x y => max_choice x y)
    (fun x y z => max_le_iff)

lemma listMaxZ_eq_some_iff {l : List ℤ} {a : ℤ} :
    listMaxZ l = some a ↔ a ∈ l ∧ ∀ b ∈ l, b ≤ a := by
  unfold listMaxZ
  exact List.max?_eq_some_iff (fun x => le_refl x) (fun x y => max_choice x y)
    (fun x y z => max_le_iff)

lemma listMaxQ_eq_none_iff {l : List ℚ} : listMaxQ l = none ↔ l = [] := by
  unfold listMaxQ
  cases l <;> simp [List.max?]

lemma listMaxZ_eq_none_iff {l : List ℤ} : listMaxZ l = none ↔ l = [] := by
  unfold listMaxZ
  cases l <;> simp [List.max?]

lemma listMaxQ_perm {l1 l2 : List ℚ} (h : l1.Perm l2) : listMaxQ l1 = listMaxQ l2 := by
  cases h1 : listMaxQ l1 with
  | none =>
    rw [listMaxQ_eq_none_iff] at h1
    subst h1
    rw [listMaxQ_eq_none_iff.mpr h.symm.eq_nil]
  | some a =>
    rw [listMaxQ_eq_some_iff] at h1
    exact (listMaxQ_eq_some_iff.mpr
      ⟨h.mem_iff.mp h1.1, fun b hb => h1.2 b (h.mem_iff.mpr hb)⟩).symm

lemma listMaxZ_perm {l1 l2 : List ℤ} (h : l1.Perm l2) : listMaxZ l1 = listMaxZ l2 := by
  cases h1 : listMaxZ l1 with
  | none =>
    rw [listMaxZ_eq_none_iff] at h1
    subst h1
    rw [listMaxZ_eq_none_iff.mpr h.symm.eq_nil]
  | some a =>
    rw [listMaxZ_eq_some_iff] at h1
    exact (listMaxZ_eq_some_iff.mpr
      ⟨h.mem_iff.mp h1.1, fun b hb => h1.2 b (h.mem_iff.mpr hb)⟩).symm

lemma mergeMaxField_perm (f : Workout → Option ℚ) {l1 l2 : List Workout} (h : l1.Perm l2) :
    mergeMaxField f l1 = mergeMaxField f l2 :=
  listMaxQ_perm (h.filterMap f)

lemma mergeAvgField_perm (f : Workout → Option ℚ) {l1 l2 : List Workout} (h : l1.Perm l2) :
    mergeAvgField f l1 = mergeAvgField f l2 := by
  have hv : (fieldValues f l1).Perm (fieldValues f l2) := h.filterMap f
  unfold mergeAvgField
  cases hv1 : fieldValues f l1 with
  | nil =>
    rw [hv1] at hv
    rw [← hv.nil_eq]
  | cons v vs =>
    rw [hv1] at hv
    cases hv2 : fieldValues f l2 with
    | nil =>
      rw [hv2] at hv
      exact absurd hv.eq_nil (by simp)
    | cons u us =>
      rw [hv2] at hv
      simp only [Option.some_inj]
      rw [hv.sum_eq, hv.length_eq]

lemma mergeQuality_perm {l1 l2 : List Workout} (h : l1.Perm l2) :
    mergeQuality l1 = mergeQuality l2 := by
  unfold mergeQuality
  rw [listMaxQ_perm (h.map (fun w => w.data_quality_score))]

/-! ## Precedence sort lemmas -/

instance precedenceRelTotal :
    IsTotal Workout (fun a b => getSourcePrecedence a.source ≤ getSourcePrecedence b.source) :=
  ⟨fun a b => le_total _ _⟩

instance precedenceRelTrans :
    IsTrans Workout (fun a b => getSourcePrecedence a.source ≤ getSourcePrecedence b.source) :=
  ⟨fun _ _ _ hab hbc => le_trans hab hbc⟩

lemma sortByPrecedence_perm (ws : List Workout) : (sortByPrecedence ws).Perm ws :=
  List.perm_insertionSort _ ws

lemma sortByPrecedence_head_min {ws : List Workout} {p : Workout} {rest : List Workout}
    (h : sortByPrecedence ws = p :: rest) :
    ∀ w ∈ ws, getSourcePrecedence p.source ≤ getSourcePrecedence w.source := by
  intro w hw
  have hperm := sortByPrecedence_perm ws
  rw [h] at hperm
  have hsorted := List.sorted_insertionSort
    (fun a b => getSourcePrecedence a.source ≤ getSourcePrecedence b.source) ws
  rw [show List.insertionSort
      (fun a b => getSourcePrecedence a.source ≤ getSourcePrecedence b.source) ws =
      sortByPrecedence ws from rfl, h] at hsorted
  have hw2 : w ∈ p :: rest := hperm.mem_iff.mpr hw
  rcases List.mem_cons.mp hw2 with heq | hmem
  · rw [heq]
  · exact List.rel_of_sorted_cons hsorted w hmem

lemma sortByPrecedence_ne_nil {ws : List Workout} (h : ws ≠ []) : sortByPrecedence ws ≠ [] := by
  intro hnil
  have hperm := sortByPrecedence_perm ws
  rw [hnil] at hperm
  exact h hperm.nil_eq.symm

/-! ## Greedy grouping membership -/

lemma greedyGroups_mem {sim : Workout → Workout → Bool} :
    ∀ (n : ℕ) (l : List Workout), l.length ≤ n →
      ∀ g ∈ greedyGroups sim l, ∀ w ∈ g, w ∈ l := by
  intro n
  induction n with
  | zero =>
    intro l hl g hg w hw
    have hnil : l = [] := List.length_eq_zero.mp (Nat.le_zero.mp hl)
    subst hnil
    simp [greedyGroups] at hg
  | succ n ih =>
    intro l hl g hg w hw
    cases l with
    | nil => simp [greedyGroups] at hg
    | cons x rest =>
      simp only [greedyGroups] at hg
      have hlen : (rest.filter (fun y => !(sim x y))).length ≤ n := by
        have h1 := List.length_filter_le (fun y => !(sim x y)) rest
        simp only [List.length_cons] at hl
        omega
      by_cases hm : (rest.filter (fun y => sim x y)).isEmpty
      · rw [if_pos hm] at hg
        have hmem := ih _ hlen g hg w hw
        exact List.mem_cons_of_mem x (List.mem_of_mem_filter hmem)
      · rw [if_neg hm] at hg
        rcases List.mem_cons.mp hg with heq | hgmem
        · subst heq
          rcases List.mem_cons.mp hw with hweq | hwmem
          · rw [hweq]; exact List.mem_cons_self x rest
          · exact List.mem_cons_of_mem x (List.mem_of_mem_filter hwmem)
        · have hmem := ih _ hlen g hgmem w hw
          exact List.mem_cons_of_mem x (List.mem_of_mem_filter hmem)

/-! ## C7 -/

/-- Workouts for the C7 counterexample: both carry GPS coordinate data and no
route fingerprint, with identical single-point routes. -/
def coordOnlyGps1 : Workout :=
  { workout_id := "g1", start_time := 0, end_time := 600, duration := 600, sport := "Run",
    sport_category := "running", source := "garmin", has_gps := true, route_hash := none,
    gps_data := some [(0, 0)] }

/-- Second coordinate-only workout of the C7 counterexample. -/
def coordOnlyGps2 : Workout :=
  { coordOnlyGps1 with workout_id := "g2", source := "strava" }

/-- C7 counterexample: two workouts with GPS coordinate sequences but no
route fingerprint have pointwise similarity 1 (identical coordinates, which
any haversine closeness test accepts at distance 0), far above the 0.8
threshold, yet the GPS grouping pass never groups them: the pass first
filters to workouts with a truthy `route_hash`, so the coordinate-proximity
branch of `_are_gps_similar` is unreachable from `_group_by_gps_similarity`. -/
theorem gpsPass_counterexample :
    coordOnlyGps1.route_hash = none ∧ coordOnlyGps2.route_hash = none ∧
    coordOnlyGps1.has_gps = true ∧ coordOnlyGps2.has_gps = true ∧
    calculateGpsSimilarity coordClose (coordOnlyGps1.gps_data.getD [])
        (coordOnlyGps2.gps_data.getD []) = 1 ∧
    (8 : ℚ)/10 ≤ 1 ∧
    groupByGpsSimilarity coordClose [coordOnlyGps1, coordOnlyGps2] = [] := by
  refine ⟨rfl, rfl, rfl, rfl, ?_, by norm_num, ?_⟩
  · simp [calculateGpsSimilarity, coordOnlyGps1, coordOnlyGps2, coordClose]
  · simp [groupByGpsSimilarity, coordOnlyGps1, coordOnlyGps2, optStrTruthy, greedyGroups]

/-- C7 amended: the GPS grouping pass restricts to workouts that have both
the GPS flag and a truthy route fingerprint, so only fingerprint-bearing
workouts can be placed in a GPS merge group (and matching among them is
fingerprint equality); workouts carrying only raw coordinates are never
grouped by this pass, whatever their pointwise similarity. -/
theorem gpsPass_fingerprint_only (close : Coord → Coord → Bool) (ws : List Workout)
    (g : List Workout) (w : Workout) (hg : g ∈ groupByGpsSimilarity close ws) (hw : w ∈ g) :
    w.has_gps = true ∧ optStrTruthy w.route_hash = true ∧ w ∈ ws := by
  unfold groupByGpsSimilarity at hg
  have hmem := greedyGroups_mem (ws.filter (fun x => x.has_gps && optStrTruthy x.route_hash)).length
    _ (le_refl _) g hg w hw
  have hprop := List.of_mem_filter hmem
  simp only [Bool.and_eq_true] at hprop
  exact ⟨hprop.1, hprop.2, List.mem_of_mem_filter hmem⟩

/-- Workouts with equal route fingerprints, used by the C7 witness. -/
def hashedGps1 : Workout :=
  { coordOnlyGps1 with route_hash := some "r01" }

/-- Second fingerprinted workout of the C7 witness. -/
def hashedGps2 : Workout :=
  { coordOnlyGps2 with route_hash := some "r01" }

/-- Witness for C7 amended: a group actually produced by the GPS pass (two
workouts with the same fingerprint) consists of fingerprint-bearing GPS
workouts from the input. -/
theorem gpsPass_fingerprint_only_witness :
    hashedGps1.has_gps = true ∧ optStrTruthy hashedGps1.route_hash = true ∧
      hashedGps1 ∈ [hashedGps1, hashedGps2] := by
  have hgroups : groupByGpsSimilarity coordClose [hashedGps1, hashedGps2] =
      [[hashedGps1, hashedGps2]] := by
    simp [groupByGpsSimilarity, hashedGps1, hashedGps2, coordOnlyGps1, coordOnlyGps2,
      optStrTruthy, greedyGroups, areGpsSimilar]
  exact gpsPass_fingerprint_only coordClose [hashedGps1, hashedGps2] [hashedGps1, hashedGps2]
    hashedGps1 (by rw [hgroups]; exact List.mem_singleton_self _) (List.mem_cons_self _ _)

/-! ## Association-list lemmas -/

/-- Key membership in an association list. -/
def keyMem {α : Type} (d : List (String × α)) (k : String) : Prop :=
  ∃ v, (k, v) ∈ d

lemma keyMem_cons {α : Type} {p : String × α} {t : List (String × α)} {k : String} :
    keyMem (p :: t) k ↔ k = p.1 ∨ keyMem t k := by
  unfold keyMem
  constructor
  · rintro ⟨v, hv⟩
    rcases List.mem_cons.mp hv with heq | hmem
    · left
      exact (congrArg Prod.fst heq)
    · right
      exact ⟨v, hmem⟩
  · rintro (heq | ⟨v, hv⟩)
    · exact ⟨p.2, by rw [heq]; exact List.mem_cons_self p t⟩
    · exact ⟨v, List.mem_cons_of_mem p hv⟩

lemma dictInsert_mem {α : Type} {d : List (String × α)} {k : String} {v : α}
    {kv : String × α} (h : kv ∈ dictInsert d k v) : kv ∈ d ∨ kv = (k, v) := by
  unfold dictInsert at h
  split_ifs at h with hany
  · rcases List.mem_map.mp h with ⟨p, hp, heq⟩
    by_cases hpk : p.1 = k
    · rw [if_pos hpk] at heq
      right
      exact heq.symm
    · rw [if_neg hpk] at heq
      left
      rw [← heq]
      exact hp
  · rcases List.mem_append.mp h with h1 | h1
    · left
      exact h1
    · right
      simpa using h1

lemma dictInsert_keyMem {α : Type} {d : List (String × α)} {k0 : String} {v0 : α}
    {k : String} : keyMem (dictInsert d k0 v0) k ↔ keyMem d k ∨ k = k0 := by
  unfold dictInsert
  split_ifs with hany
  · constructor
    · rintro ⟨v, hv⟩
      rcases List.mem_map.mp hv with ⟨p, hp, heq⟩
      by_cases hpk : p.1 = k0
      · rw [if_pos hpk] at heq
        right
        exact (congrArg Prod.fst heq).symm
      · rw [if_neg hpk] at heq
        left
        exact ⟨v, heq ▸ hp⟩
    · rintro (⟨v, hv⟩ | hk)
      · by_cases hvk : k = k0
        · subst hvk
          rcases List.any_eq_true.mp hany with ⟨p, hp, hpk⟩
          refine ⟨v0, ?_⟩
          have hmap := List.mem_map_of_mem (fun p => if p.1 = k then (k, v0) else p) hp
          simp only [] at hmap
          rwa [if_pos (of_decide_eq_true hpk)] at hmap
        · refine ⟨v, ?_⟩
          have hmap := List.mem_map_of_mem (fun p => if p.1 = k0 then (k0, v0) else p) hv
          simp only [] at hmap
          rwa [if_neg (by simpa using hvk)] at hmap
      · subst hk
        rcases List.any_eq_true.mp hany with ⟨p, hp, hpk⟩
        refine ⟨v0, ?_⟩
        have hmap := List.mem_map_of_mem (fun p => if p.1 = k then (k, v0) else p) hp
        simp only [] at hmap
        rwa [if_pos (of_decide_eq_true hpk)] at hmap
  · unfold keyMem
    constructor
    · rintro ⟨v, hv⟩
      rcases List.mem_append.mp hv with h1 | h1
      · left
        exact ⟨v, h1⟩
      · right
        simpa using congrArg Prod.fst (List.mem_singleton.mp h1)
    · rintro (⟨v, hv⟩ | hk)
      · exact ⟨v, List.mem_append_left _ hv⟩
      · exact ⟨v0, by rw [hk]; exact List.mem_append_right _ (List.mem_singleton_self _)⟩

lemma dictUpdate_mem {α : Type} {d1 d2 : List (String × α)} {kv : String × α}
    (h : kv ∈ dictUpdate d1 d2) : kv ∈ d1 ∨ kv ∈ d2 := by
  induction d2 generalizing d1 with
  | nil => exact Or.inl h
  | cons p t ih =>
    have h2 : kv ∈ dictUpdate (dictInsert d1 p.1 p.2) t := h
    rcases ih h2 with h1 | h1
    · rcases dictInsert_mem h1 with h3 | h3
      · exact Or.inl h3
      · right
        rw [h3]
        exact List.mem_cons_self p t
    · right
      exact List.mem_cons_of_mem p h1

lemma dictUpdate_keyMem {α : Type} {d1 d2 : List (String × α)} {k : String} :
    keyMem (dictUpdate d1 d2) k ↔ keyMem d1 k ∨ keyMem d2 k := by
  induction d2 generalizing d1 with
  | nil =>
    unfold dictUpdate keyMem
    simp
  | cons p t ih =>
    have h2 : dictUpdate d1 (p :: t) = dictUpdate (dictInsert d1 p.1 p.2) t := rfl
    rw [h2, ih, dictInsert_keyMem, keyMem_cons]
    tauto

lemma extIdsFold_mem {l : List Workout} {init : List (String × String)} {kv : String × String}
    (h : kv ∈ l.foldl (fun acc w => dictUpdate acc w.external_ids) init) :
    kv ∈ init ∨ ∃ w ∈ l, kv ∈ w.external_ids := by
  induction l generalizing init with
  | nil => exact Or.inl h
  | cons w t ih =>
    rw [List.foldl_cons] at h
    rcases ih h with h1 | h1
    · rcases dictUpdate_mem h1 with h2 | h2
      · exact Or.inl h2
      · exact Or.inr ⟨w, List.mem_cons_self w t, h2⟩
    · rcases h1 with ⟨w2, hw2, hkv⟩
      exact Or.inr ⟨w2, List.mem_cons_of_mem w hw2, hkv⟩

lemma extIdsFold_keyMem {l : List Workout} {init : List (String × String)} {k : String} :
    keyMem (l.foldl (fun acc w => dictUpdate acc w.external_ids) init) k ↔
      keyMem init k ∨ ∃ w ∈ l, keyMem w.external_ids k := by
  induction l generalizing init with
  | nil => simp
  | cons w t ih =>
    rw [List.foldl_cons, ih, dictUpdate_keyMem]
    simp only [List.mem_cons]
    constructor
    · rintro ((h | h) | ⟨w2, hw2, h⟩)
      · exact Or.inl h
      · exact Or.inr ⟨w, Or.inl rfl, h⟩
      · exact Or.inr ⟨w2, Or.inr hw2, h⟩
    · rintro (h | ⟨w2, hw2 | hw2, h⟩)
      · exact Or.inl (Or.inl h)
      · exact Or.inl (Or.inr (hw2 ▸ h))
      · exact Or.inr ⟨w2, hw2, h⟩

/-! ## Merge-group field lemmas -/

lemma mergeMaxField_singleton (f : Workout → Option ℚ) (w : Workout) :
    mergeMaxField f [w] = f w := by
  unfold mergeMaxField fieldValues listMaxQ
  cases hf : f w <;> simp [List.max?, hf]

lemma mergeAvgField_singleton (f : Workout → Option ℚ) (w : Workout) :
    mergeAvgField f [w] = f w := by
  unfold mergeAvgField fieldValues
  cases hf : f w <;> simp [hf]

lemma listMaxZ_filterMap_singleton (f : Workout → Option ℤ) (w : Workout) :
    listMaxZ ([w].filterMap f) = f w := by
  unfold listMaxZ
  cases hf : f w <;> simp [List.max?, hf]

lemma mergeQuality_singleton (w : Workout) : mergeQuality [w] = w.data_quality_score := by
  unfold mergeQuality listMaxQ
  simp [List.max?]

/-- Shared analysis of `_merge_workout_group`: the merged record takes its
identity fields from a minimum-precedence member, merges each numeric field
by the claimed formula over the group, and carries the union of the
external-id maps. -/
lemma mergeWorkoutGroup_aux (g : List Workout) (m : Workout)
    (hm : mergeWorkoutGroup g = some m) :
    (∃ p ∈ g, (∀ w ∈ g, getSourcePrecedence p.source ≤ getSourcePrecedence w.source) ∧
      m.workout_id = p.workout_id ∧ m.start_time = p.start_time ∧ m.end_time = p.end_time ∧
      m.duration = p.duration ∧ m.sport = p.sport ∧ m.sport_category = p.sport_category ∧
      m.source = p.source) ∧
    m.calories = listMaxZ (g.filterMap (fun w => w.calories)) ∧
    m.distance = mergeMaxField (fun w => w.distance) g ∧
    m.elevation_gain = mergeMaxField (fun w => w.elevation_gain) g ∧
    m.power_avg = mergeMaxField (fun w => w.power_avg) g ∧
    m.cadence_avg = mergeMaxField (fun w => w.cadence_avg) g ∧
    m.training_load = mergeMaxField (fun w => w.training_load) g ∧
    m.heart_rate_max = mergeMaxField (fun w => w.heart_rate_max) g ∧
    m.heart_rate_avg = mergeAvgField (fun w => w.heart_rate_avg) g ∧
    m.data_quality_score = mergeQuality g ∧
    (∀ kv ∈ m.external_ids, ∃ w ∈ g, kv ∈ w.external_ids) ∧
    (∀ w ∈ g, ∀ kv : String × String, kv ∈ w.external_ids → keyMem m.external_ids kv.1) := by
  cases g with
  | nil => exact absurd hm (by simp [mergeWorkoutGroup])
  | cons w tail =>
    cases tail with
    | nil =>
      have hmw : m = w := by
        simpa [mergeWorkoutGroup] using hm.symm
      subst hmw
      refine ⟨⟨m, List.mem_singleton_self m, ?_, rfl, rfl, rfl, rfl, rfl, rfl, rfl⟩, ?_, ?_, ?_,
        ?_, ?_, ?_, ?_, ?_, ?_, ?_, ?_⟩
      · intro w2 hw2
        rw [List.mem_singleton.mp hw2]
      · exact (listMaxZ_filterMap_singleton _ m).symm
      · exact (mergeMaxField_singleton _ m).symm
      · exact (mergeMaxField_singleton _ m).symm
      · exact (mergeMaxField_singleton _ m).symm
      · exact (mergeMaxField_singleton _ m).symm
      · exact (mergeMaxField_singleton _ m).symm
      · exact (mergeMaxField_singleton _ m).symm
      · exact (mergeAvgField_singleton _ m).symm
      · exact (mergeQuality_singleton m).symm
      · intro kv hkv
        exact ⟨m, List.mem_singleton_self m, hkv⟩
      · intro w2 hw2 kv hkv
        rw [List.mem_singleton.mp hw2] at hkv
        exact ⟨kv.2, by simpa using hkv⟩
    | cons wb rest =>
      cases hs : sortByPrecedence (w :: wb :: rest) with
      | nil => exact absurd hs (sortByPrecedence_ne_nil (by simp))
      | cons p srest =>
        have hmk : m = mkMergedWorkout p (p :: srest) := by
          unfold mergeWorkoutGroup at hm
          dsimp only at hm
          rw [hs] at hm
          simpa using hm.symm
        have hperm : (p :: srest).Perm (w :: wb :: rest) := by
          rw [← hs]
          exact sortByPrecedence_perm _
        subst hmk
        refine ⟨⟨p, hperm.mem_iff.mp (List.mem_cons_self p srest),
            sortByPrecedence_head_min hs, rfl, rfl, rfl, rfl, rfl, rfl, rfl⟩,
          ?_, ?_, ?_, ?_, ?_, ?_, ?_, ?_, ?_, ?_, ?_⟩
        · exact listMaxZ_perm (hperm.filterMap _)
        · exact mergeMaxField_perm _ hperm
        · exact mergeMaxField_perm _ hperm
        · exact mergeMaxField_perm _ hperm
        · exact mergeMaxField_perm _ hperm
        · exact mergeMaxField_perm _ hperm
        · exact mergeMaxField_perm _ hperm
        · exact mergeAvgField_perm _ hperm
        · exact mergeQuality_perm hperm
        · intro kv hkv
          rcases extIdsFold_mem hkv with h1 | h1
          · exact absurd h1 (List.not_mem_nil kv)
          · rcases h1 with ⟨w3, hw3, hkv3⟩
            exact ⟨w3, hperm.mem_iff.mp hw3, hkv3⟩
        · intro w3 hw3 kv hkv
          have hkey : keyMem w3.external_ids kv.1 := ⟨kv.2, by simpa using hkv⟩
          exact extIdsFold_keyMem.mpr (Or.inr ⟨w3, hperm.mem_iff.mpr hw3, hkey⟩)

/-! ## C4 -/

/-- C4: for every nonempty merge group, the merged workout takes its identity
fields (workout id, start/end time, duration, sport, sport category) from a
member of minimal source precedence; calories, distance, elevation gain,
power, cadence and training load are the maxima over the members carrying the
field; maximum heart rate is the maximum and average heart rate the
arithmetic mean of the values present; the data-quality score is the maximum
across the group; and the external-id map is the union of the members' maps
(every entry comes from some member, and every member key appears). -/
theorem mergeGroup_spec (g : List Workout) (m : Workout)
    (hm : mergeWorkoutGroup g = some m) :
    (∃ p ∈ g, (∀ w ∈ g, getSourcePrecedence p.source ≤ getSourcePrecedence w.source) ∧
      m.workout_id = p.workout_id ∧ m.start_time = p.start_time ∧ m.end_time = p.end_time ∧
      m.duration = p.duration ∧ m.sport = p.sport ∧ m.sport_category = p.sport_category) ∧
    m.calories = listMaxZ (g.filterMap (fun w => w.calories)) ∧
    m.distance = mergeMaxField (fun w => w.distance) g ∧
    m.elevation_gain = mergeMaxField (fun w => w.elevation_gain) g ∧
    m.power_avg = mergeMaxField (fun w => w.power_avg) g ∧
    m.cadence_avg = mergeMaxField (fun w => w.cadence_avg) g ∧
    m.training_load = mergeMaxField (fun w => w.training_load) g ∧
    m.heart_rate_max = mergeMaxField (fun w => w.heart_rate_max) g ∧
    m.heart_rate_avg = mergeAvgField (fun w => w.heart_rate_avg) g ∧
    m.data_quality_score = mergeQuality g ∧
    (∀ kv ∈ m.external_ids, ∃ w ∈ g, kv ∈ w.external_ids) ∧
    (∀ w ∈ g, ∀ kv : String × String, kv ∈ w.external_ids → keyMem m.external_ids kv.1) := by
  obtain ⟨⟨p, hp, hmin, h1, h2, h3, h4, h5, h6, _⟩, hrest⟩ := mergeWorkoutGroup_aux g m hm
  exact ⟨⟨p, hp, hmin, h1, h2, h3, h4, h5, h6⟩, hrest⟩

/-! ## C10 -/

lemma getSourcePrecedence_lt_of_unlisted {s t : String} (hs : s ∉ PRECEDENCE)
    (ht : t ∈ PRECEDENCE) : getSourcePrecedence t < getSourcePrecedence s := by
  unfold getSourcePrecedence
  have h1 : PRECEDENCE.indexOf t < PRECEDENCE.length := List.indexOf_lt_length.mpr ht
  have h2 : PRECEDENCE.indexOf s = PRECEDENCE.length := List.indexOf_eq_length.mpr hs
  omega

/-- C10: every source outside the fixed precedence list ranks strictly after
every listed source, and a merge group containing at least one workout from a
listed source never takes its identity fields from an unlisted-source
workout: the primary is itself from a listed source. -/
theorem unlistedSource_spec (g : List Workout) (m : Workout)
    (hm : mergeWorkoutGroup g = some m)
    (hlisted : ∃ w ∈ g, w.source ∈ PRECEDENCE) :
    (∀ s, s ∉ PRECEDENCE → ∀ t ∈ PRECEDENCE, getSourcePrecedence t < getSourcePrecedence s) ∧
    ∃ p ∈ g, p.source ∈ PRECEDENCE ∧ m.workout_id = p.workout_id ∧
      m.start_time = p.start_time ∧ m.end_time = p.end_time ∧ m.duration = p.duration ∧
      m.sport = p.sport ∧ m.sport_category = p.sport_category ∧ m.source = p.source := by
  refine ⟨fun s hs t ht => getSourcePrecedence_lt_of_unlisted hs ht, ?_⟩
  obtain ⟨⟨p, hp, hmin, h1, h2, h3, h4, h5, h6, h7⟩, _⟩ := mergeWorkoutGroup_aux g m hm
  refine ⟨p, hp, ?_, h1, h2, h3, h4, h5, h6, h7⟩
  obtain ⟨w0, hw0, hw0l⟩ := hlisted
  by_contra hpl
  have hlt := getSourcePrecedence_lt_of_unlisted hpl hw0l
  have hle := hmin w0 hw0
  omega

/-! ## Biometric grouping invariant -/

/-- Invariant of the `grouped` dict of `deduplicate_biometrics` after
processing the prefix `pre`: keys are distinct, each bucket holds exactly the
prefix readings with its key, and each processed reading has a bucket. -/
def bioBucketsInv (pre : List BiometricReading)
    (acc : List ((ℤ × String × String) × List BiometricReading)) : Prop :=
  (acc.map (fun p => p.1)).Nodup ∧
  (∀ k G, (k, G) ∈ acc → G = pre.filter (fun r => bioKey r = k)) ∧
  (∀ r ∈ pre, ∃ G, (bioKey r, G) ∈ acc)

lemma bioBucketsInv_step {pre : List BiometricReading}
    {acc : List ((ℤ × String × String) × List BiometricReading)} {r : BiometricReading}
    (h : bioBucketsInv pre acc) : bioBucketsInv (pre ++ [r]) (bucketAdd acc (bioKey r) r) := by
  obtain ⟨hnd, hval, hcomp⟩ := h
  unfold bucketAdd
  by_cases hany : acc.any (fun p => p.1 = bioKey r) = true
  · rw [if_pos hany]
    have hkeys : (acc.map (fun p => if p.1 = bioKey r then (p.1, p.2 ++ [r]) else p)).map
        (fun p => p.1) = acc.map (fun p => p.1) := by
      rw [List.map_map]
      apply List.map_congr_left
      intro p _
      by_cases hp : p.1 = bioKey r
      · simp [hp]
      · simp [hp]
    refine ⟨by rw [hkeys]; exact hnd, ?_, ?_⟩
    · intro k G hkG
      rcases List.mem_map.mp hkG with ⟨p, hp, heq⟩
      by_cases hpk : p.1 = bioKey r
      · rw [if_pos hpk] at heq
        have hk : k = p.1 := (congrArg Prod.fst heq).symm
        have hG : G = p.2 ++ [r] := (congrArg Prod.snd heq).symm
        have hold : p.2 = pre.filter (fun r2 => bioKey r2 = k) := by
          apply hval
          rw [hk]
          exact (Prod.mk.eta (p := p)) ▸ hp
        rw [hG, hold, List.filter_append]
        congr 1
        have : bioKey r = k := by rw [hk, ← hpk]
        simp [this]
      · rw [if_neg hpk] at heq
        have hpacc : (k, G) ∈ acc := heq ▸ hp
        have hold := hval k G hpacc
        have hkne : ¬ (bioKey r = k) := by
          intro hc
          apply hpk
          have : k = p.1 := (congrArg Prod.fst heq.symm)
          rw [← this, hc]
        rw [hold, List.filter_append]
        simp [hkne]
    · intro r2 hr2
      rcases List.mem_append.mp hr2 with h2 | h2
      · rcases hcomp r2 h2 with ⟨G, hG⟩
        by_cases hgk : bioKey r2 = bioKey r
        · refine ⟨G ++ [r], ?_⟩
          have hmap := List.mem_map_of_mem
            (fun p => if p.1 = bioKey r then (p.1, p.2 ++ [r]) else p) hG
          simp only [] at hmap
          rwa [if_pos (by simpa using hgk)] at hmap
        · refine ⟨G, ?_⟩
          have hmap := List.mem_map_of_mem
            (fun p => if p.1 = bioKey r then (p.1, p.2 ++ [r]) else p) hG
          simp only [] at hmap
          rwa [if_neg (by simpa using hgk)] at hmap
      · have hr2r : r2 = r := by simpa using h2
        subst hr2r
        rcases List.any_eq_true.mp hany with ⟨p, hp, hpk⟩
        have hpk2 : p.1 = bioKey r2 := of_decide_eq_true hpk
        refine ⟨p.2 ++ [r2], ?_⟩
        have hmap := List.mem_map_of_mem
          (fun q => if q.1 = bioKey r2 then (q.1, q.2 ++ [r2]) else q) hp
        simp only [] at hmap
        rwa [if_pos hpk2, hpk2] at hmap
  · rw [if_neg hany]
    have hnew : ∀ p ∈ acc, p.1 ≠ bioKey r := by
      intro p hp hc
      exact hany (List.any_eq_true.mpr ⟨p, hp, decide_eq_true hc⟩)
    refine ⟨?_, ?_, ?_⟩
    · rw [List.map_append]
      rw [List.nodup_append]
      refine ⟨hnd, List.nodup_singleton _, ?_⟩
      intro k hk hk2
      rcases List.mem_map.mp hk with ⟨p, hp, heq⟩
      have : k = bioKey r := by simpa using hk2
      exact hnew p hp (by rw [heq, this])
    · intro k G hkG
      rcases List.mem_append.mp hkG with h2 | h2
      · have hold := hval k G h2
        have hkne : ¬ (bioKey r = k) := by
          intro hc
          exact hnew (k, G) h2 (by simpa using hc.symm)
        rw [hold, List.filter_append]
        simp [hkne]
      · have heq := List.mem_singleton.mp h2
        have hk1 : k = bioKey r := by simpa using congrArg Prod.fst heq
        have hk2 : G = [r] := by simpa using congrArg Prod.snd heq
        subst hk1
        subst hk2
        have hpre : pre.filter (fun r2 => bioKey r2 = bioKey r) = [] := by
          rw [List.filter_eq_nil_iff]
          intro r2 hr2 hc
          rcases hcomp r2 hr2 with ⟨G2, hG2⟩
          exact hnew (bioKey r2, G2) hG2 (by simpa using of_decide_eq_true hc)
        rw [List.filter_append, hpre]
        simp
    · intro r2 hr2
      rcases List.mem_append.mp hr2 with h2 | h2
      · rcases hcomp r2 h2 with ⟨G, hG⟩
        exact ⟨G, List.mem_append_left _ hG⟩
      · have hr2r : r2 = r := by simpa using h2
        subst hr2r
        exact ⟨[r2], List.mem_append_right _ (by simp)⟩

lemma bioBuckets_foldl_inv (rs : List BiometricReading) :
    ∀ (pre : List BiometricReading) (acc : List ((ℤ × String × String) × List BiometricReading)),
      bioBucketsInv pre acc →
      bioBucketsInv (pre ++ rs) (rs.foldl (fun gs r => bucketAdd gs (bioKey r) r) acc) := by
  induction rs with
  | nil =>
    intro pre acc h
    simpa using h
  | cons r t ih =>
    intro pre acc h
    have h2 := bioBucketsInv_step (r := r) h
    have h3 := ih (pre ++ [r]) _ h2
    rw [List.append_assoc] at h3
    simpa using h3

lemma groupBiometricsByKey_inv (rs : List BiometricReading) :
    bioBucketsInv rs (groupBiometricsByKey rs) := by
  have h0 : bioBucketsInv [] [] := ⟨List.nodup_nil, by simp, by simp⟩
  have h := bioBuckets_foldl_inv rs [] [] h0
  simpa [groupBiometricsByKey] using h

/-! ## Biometric merge lemmas -/

instance confidenceRelTotal :
    IsTotal BiometricReading (fun a b => b.confidence ≤ a.confidence) :=
  ⟨fun a b => le_total _ _⟩

instance confidenceRelTrans :
    IsTrans BiometricReading (fun a b => b.confidence ≤ a.confidence) :=
  ⟨fun _ _ _ hab hbc => le_trans hbc hab⟩

lemma sortByConfidenceDesc_perm (rs : List BiometricReading) :
    (sortByConfidenceDesc rs).Perm rs :=
  List.perm_insertionSort _ rs

lemma mergeBiometricGroup_eq_none {G : List BiometricReading}
    (h : mergeBiometricGroup G = none) : G = [] := by
  cases G with
  | nil => rfl
  | cons r t =>
    cases t with
    | nil => exact absurd h (by simp [mergeBiometricGroup])
    | cons r2 t2 => exact absurd h (by simp [mergeBiometricGroup])

lemma headD_mem_of_perm {s G : List BiometricReading} {r1 : BiometricReading}
    (hperm : s.Perm G) (hG : G ≠ []) : s.headD r1 ∈ G := by
  cases s with
  | nil => exact absurd hperm.nil_eq.symm hG
  | cons a t => exact hperm.mem_iff.mp (List.mem_cons_self a t)

lemma mergeBiometricGroup_key {G : List BiometricReading} {k : ℤ × String × String}
    {b : BiometricReading} (hkeys : ∀ r ∈ G, bioKey r = k)
    (h : mergeBiometricGroup G = some b) : bioKey b = k := by
  cases G with
  | nil => exact absurd h (by simp [mergeBiometricGroup])
  | cons r t =>
    cases t with
    | nil =>
      have : b = r := by simpa [mergeBiometricGroup] using h.symm
      rw [this]
      exact hkeys r (List.mem_cons_self r [])
    | cons r2 t2 =>
      have hprim : (sortByConfidenceDesc (r :: r2 :: t2)).headD r ∈ r :: r2 :: t2 :=
        headD_mem_of_perm (sortByConfidenceDesc_perm _) (by simp)
      have hb : bioKey b = bioKey ((sortByConfidenceDesc (r :: r2 :: t2)).headD r) := by
        unfold mergeBiometricGroup at h
        rw [Option.some_inj] at h
        rw [← h]
        rfl
      rw [hb]
      exact hkeys _ hprim

lemma mergeBiometricGroup_formulas {G : List BiometricReading} {b : BiometricReading}
    (h : mergeBiometricGroup G = some b)
    (hcpos : 0 < (G.map (fun r => r.confidence)).sum)
    (hc1 : ∀ r ∈ G, r.confidence ≤ 1) :
    b.value = (G.map (fun r => r.value * r.confidence)).sum /
        (G.map (fun r => r.confidence)).sum ∧
    b.confidence = min 1 ((G.map (fun r => r.confidence)).sum / (G.length : ℚ)) := by
  cases G with
  | nil => exact absurd h (by simp [mergeBiometricGroup])
  | cons r t =>
    cases t with
    | nil =>
      have hbr : b = r := by simpa [mergeBiometricGroup] using h.symm
      subst hbr
      have hc : 0 < b.confidence := by simpa using hcpos
      constructor
      · field_simp
      · have h1 : (([b] : List BiometricReading).map (fun r => r.confidence)).sum = b.confidence := by
          simp
        rw [h1]
        simp only [List.length_singleton]
        rw [Nat.cast_one, div_one]
        exact (min_eq_right (hc1 b (List.mem_singleton_self b))).symm
    | cons r2 t2 =>
      unfold mergeBiometricGroup at h
      dsimp only at h
      rw [Option.some_inj] at h
      constructor <;> rw [← h]

/-! ## C8 -/

/-- C8: for every key `(date, metric type, source)` occurring among the
readings (with confidences in [0, 1] and positive total confidence in that
key group), biometric deduplication returns exactly one reading with that
key; its value is the confidence-weighted average and its confidence the
arithmetic mean of the group confidences capped at 1.  Readings with a
different key contribute nothing to it. -/
theorem biometricDedup_spec (rs : List BiometricReading) (k : ℤ × String × String)
    (hk : rs.filter (fun r => bioKey r = k) ≠ [])
    (hconf1 : ∀ r ∈ rs, r.confidence ≤ 1)
    (hcpos : 0 < ((rs.filter (fun r => bioKey r = k)).map (fun r => r.confidence)).sum) :
    ∃ b ∈ deduplicateBiometrics rs,
      bioKey b = k ∧
      b.value = ((rs.filter (fun r => bioKey r = k)).map (fun r => r.value * r.confidence)).sum /
        ((rs.filter (fun r => bioKey r = k)).map (fun r => r.confidence)).sum ∧
      b.confidence = min 1
        (((rs.filter (fun r => bioKey r = k)).map (fun r => r.confidence)).sum /
          ((rs.filter (fun r => bioKey r = k)).length : ℚ)) ∧
      ∀ b2 ∈ deduplicateBiometrics rs, bioKey b2 = k → b2 = b := by
  obtain ⟨hnd, hval, hcomp⟩ := groupBiometricsByKey_inv rs
  have hrsne : ¬ rs.isEmpty := by
    intro hempty
    rw [List.isEmpty_iff] at hempty
    subst hempty
    simp at hk
  have hout : deduplicateBiometrics rs =
      (groupBiometricsByKey rs).filterMap (fun p => mergeBiometricGroup p.2) := by
    unfold deduplicateBiometrics
    rw [if_neg hrsne]
  obtain ⟨r0, hr0⟩ := List.exists_mem_of_ne_nil _ hk
  have hr0mem : r0 ∈ rs := List.mem_of_mem_filter hr0
  have hr0k : bioKey r0 = k := by simpa using (List.of_mem_filter hr0)
  obtain ⟨G, hG⟩ := hcomp r0 hr0mem
  rw [hr0k] at hG
  have hGval : G = rs.filter (fun r => bioKey r = k) := hval k G hG
  have hGkeys : ∀ r ∈ G, bioKey r = k := by
    intro r hr
    rw [hGval] at hr
    simpa using List.of_mem_filter hr
  cases hmerge : mergeBiometricGroup G with
  | none =>
    exact absurd (hGval ▸ mergeBiometricGroup_eq_none hmerge) hk
  | some b =>
    have hbmem : b ∈ deduplicateBiometrics rs := by
      rw [hout]
      exact List.mem_filterMap.mpr ⟨(k, G), hG, hmerge⟩
    have hbkey := mergeBiometricGroup_key hGkeys hmerge
    have hforms := mergeBiometricGroup_formulas hmerge (by rw [hGval]; exact hcpos)
      (by intro r hr; exact hconf1 r (by rw [hGval] at hr; exact List.mem_of_mem_filter hr))
    refine ⟨b, hbmem, hbkey, by rw [← hGval]; exact hforms.1, by rw [← hGval]; exact hforms.2, ?_⟩
    intro b2 hb2 hb2k
    rw [hout] at hb2
    rcases List.mem_filterMap.mp hb2 with ⟨⟨k2, G2⟩, hk2G2, hmerge2⟩
    have hG2val : G2 = rs.filter (fun r => bioKey r = k2) := hval k2 G2 hk2G2
    have hG2keys : ∀ r ∈ G2, bioKey r = k2 := by
      intro r hr
      rw [hG2val] at hr
      simpa using List.of_mem_filter hr
    have hk2 : k2 = k := by
      rw [← mergeBiometricGroup_key hG2keys hmerge2]
      exact hb2k
    subst hk2
    have : G2 = G := by rw [hG2val, hGval]
    subst this
    rw [hmerge] at hmerge2
    exact (Option.some_inj.mp hmerge2).symm

/-! ## C6 counterexample inputs -/

/-- First workout of the C6 counterexample: a 10-minute run at t = 0. -/
def c6w1 : Workout :=
  { workout_id := "w1", start_time := 0, end_time := 600, duration := 600, sport := "Run",
    sport_category := "running", source := "a" }

/-- Second workout: same run reported 4 minutes later. -/
def c6w2 : Workout :=
  { c6w1 with workout_id := "w2", start_time := 240, end_time := 840, source := "b" }

/-- Third workout: 8 minutes after the first (similar to the second, not to
the first). -/
def c6w3 : Workout :=
  { c6w1 with workout_id := "w3", start_time := 480, end_time := 1080, source := "c" }

lemma c6_sim12 : areTemporallySimilar c6w1 c6w2 = true := by
  simp [areTemporallySimilar, c6w1, c6w2]
  norm_num

lemma c6_sim13 : areTemporallySimilar c6w1 c6w3 = false := by
  simp [areTemporallySimilar, c6w1, c6w3]
  norm_num

lemma c6_sim21 : areTemporallySimilar c6w2 c6w1 = true := by
  simp [areTemporallySimilar, c6w1, c6w2]
  norm_num

lemma c6_sim23 : areTemporallySimilar c6w2 c6w3 = true := by
  simp [areTemporallySimilar, c6w2, c6w3]
  norm_num

lemma c6_temporal1 : groupByTemporalSimilarity [c6w1, c6w2, c6w3] = [[c6w1, c6w2]] := by
  simp [groupByTemporalSimilarity, greedyGroups, List.filter_cons, c6_sim12, c6_sim13]

lemma c6_temporal2 : groupByTemporalSimilarity [c6w2, c6w1, c6w3] = [[c6w2, c6w1, c6w3]] := by
  simp [groupByTemporalSimilarity, greedyGroups, List.filter_cons, c6_sim21, c6_sim23]

lemma c6_extIds1 : groupByExternalIds [c6w1, c6w2, c6w3] = [] := by
  simp [groupByExternalIds, extIdKeys, c6w1, c6w2, c6w3]

lemma c6_extIds2 : groupByExternalIds [c6w2, c6w1, c6w3] = [] := by
  simp [groupByExternalIds, extIdKeys, c6w1, c6w2, c6w3]

lemma c6_gps1 : groupByGpsSimilarity coordClose [c6w1, c6w2, c6w3] = [] := by
  simp [groupByGpsSimilarity, greedyGroups, c6w1, c6w2, c6w3]

lemma c6_gps2 : groupByGpsSimilarity coordClose [c6w2, c6w1, c6w3] = [] := by
  simp [groupByGpsSimilarity, greedyGroups, c6w1, c6w2, c6w3]

lemma c6_dedup1 : deduplicateWorkouts coordClose [c6w1, c6w2, c6w3] =
    [c6w3, mkMergedWorkout c6w1 [c6w1, c6w2]] := by
  unfold deduplicateWorkouts
  rw [c6_extIds1, c6_temporal1, c6_gps1]
  rfl

lemma c6_dedup2 : deduplicateWorkouts coordClose [c6w2, c6w1, c6w3] =
    [mkMergedWorkout c6w2 [c6w2, c6w1, c6w3]] := by
  unfold deduplicateWorkouts
  rw [c6_extIds2, c6_temporal2, c6_gps2]
  rfl

/-- C6 counterexample: deduplication is not order-independent.  The three
workouts are pairwise related non-transitively (1 similar to 2, 2 similar to
3, 1 not similar to 3): in order [1, 2, 3] the greedy temporal pass groups
only 1 and 2 and workout 3 survives unmerged, while in the permuted order
[2, 1, 3] all three are grouped and workout 3 is absorbed, so the two merged
sets differ. -/
theorem dedupOrder_counterexample :
    ([c6w1, c6w2, c6w3] : List Workout).Perm [c6w2, c6w1, c6w3] ∧
    c6w3 ∈ deduplicateWorkouts coordClose [c6w1, c6w2, c6w3] ∧
    c6w3 ∉ deduplicateWorkouts coordClose [c6w2, c6w1, c6w3] := by
  refine ⟨List.Perm.swap c6w2 c6w1 [c6w3], ?_, ?_⟩
  · rw [c6_dedup1]
    exact List.mem_cons_self _ _
  · rw [c6_dedup2]
    intro h
    have hid := congrArg Workout.workout_id (List.mem_singleton.mp h)
    simp [c6w3, c6w2, c6w1, mkMergedWorkout] at hid

/-! ## C6 amended: pair order-independence -/

lemma areTemporallySimilar_symm (w1 w2 : Workout) :
    areTemporallySimilar w1 w2 = areTemporallySimilar w2 w1 := by
  unfold areTemporallySimilar
  rw [abs_sub_comm w1.start_time w2.start_time, abs_sub_comm w1.duration w2.duration,
    max_comm w1.duration w2.duration,
    decide_eq_decide.mpr ⟨Eq.symm, Eq.symm⟩]

lemma sortByPrecedence_pair {A B : Workout}
    (hprec : getSourcePrecedence A.source < getSourcePrecedence B.source) :
    sortByPrecedence [A, B] = [A, B] ∧ sortByPrecedence [B, A] = [A, B] := by
  constructor
  · unfold sortByPrecedence
    simp [List.insertionSort, List.orderedInsert, le_of_lt hprec]
  · unfold sortByPrecedence
    simp [List.insertionSort, List.orderedInsert, not_le.mpr hprec]

lemma mergeWorkoutGroup_pair {A B : Workout}
    (hprec : getSourcePrecedence A.source < getSourcePrecedence B.source) :
    mergeWorkoutGroup [A, B] = some (mkMergedWorkout A [A, B]) ∧
    mergeWorkoutGroup [B, A] = some (mkMergedWorkout A [A, B]) := by
  obtain ⟨h1, h2⟩ := sortByPrecedence_pair hprec
  constructor
  · unfold mergeWorkoutGroup
    dsimp only
    rw [h1]
  · unfold mergeWorkoutGroup
    dsimp only
    rw [h2]

lemma greedyGroups_pair_pos {sim : Workout → Workout → Bool} {A B : Workout}
    (h : sim A B = true) : greedyGroups sim [A, B] = [[A, B]] := by
  simp [greedyGroups, List.filter_cons, h]

lemma greedyGroups_pair_neg {sim : Workout → Workout → Bool} {A B : Workout}
    (h : sim A B = false) : greedyGroups sim [A, B] = [] := by
  simp [greedyGroups, List.filter_cons, h]

lemma groupByExternalIds_pair {A B : Workout} (hA : A.external_ids = [])
    (hB : B.external_ids = []) : groupByExternalIds [A, B] = [] := by
  simp [groupByExternalIds, extIdKeys, hA, hB]

lemma groupByGps_pair (close : Coord → Coord → Bool) {A B : Workout}
    (hA : A.has_gps = false) (hB : B.has_gps = false) :
    groupByGpsSimilarity close [A, B] = [] := by
  simp [groupByGpsSimilarity, hA, hB, greedyGroups]

lemma mergeAllGroups_pair {A B : Workout} {M : Workout}
    (hM : mergeWorkoutGroup [A, B] = some M) :
    mergeAllGroups [A, B] [] [[A, B]] [] = [M] := by
  unfold mergeAllGroups processGroup
  simp [hM, List.erase_cons_head]

lemma mergeAllGroups_noGroups (ws : List Workout) : mergeAllGroups ws [] [] [] = ws := rfl

/-- C6 amended: deduplication is not order-independent in general (see the
counterexample), but for a two-workout batch with empty external-id maps, no
GPS, and sources of distinct precedence, the merged output is the same set
for both arrival orders. -/
theorem dedupPair_orderIndependent (close : Coord → Coord → Bool) (A B : Workout)
    (hAids : A.external_ids = []) (hBids : B.external_ids = [])
    (hAgps : A.has_gps = false) (hBgps : B.has_gps = false)
    (hprec : getSourcePrecedence A.source < getSourcePrecedence B.source) :
    (deduplicateWorkouts close [A, B]).Perm (deduplicateWorkouts close [B, A]) := by
  obtain ⟨hm1, hm2⟩ := mergeWorkoutGroup_pair hprec
  have hsymm := areTemporallySimilar_symm A B
  unfold deduplicateWorkouts
  rw [groupByExternalIds_pair hAids hBids, groupByExternalIds_pair hBids hAids,
    groupByGps_pair close hAgps hBgps, groupByGps_pair close hBgps hAgps]
  simp only [List.isEmpty_cons, Bool.false_eq_true, if_false]
  unfold groupByTemporalSimilarity
  cases hsim : areTemporallySimilar A B with
  | true =>
    have hsim2 : areTemporallySimilar B A = true := by rw [← hsymm]; exact hsim
    rw [greedyGroups_pair_pos hsim, greedyGroups_pair_pos hsim2]
    rw [mergeAllGroups_pair hm1]
    have hswap : mergeAllGroups [B, A] [] [[B, A]] [] = [mkMergedWorkout A [A, B]] := by
      unfold mergeAllGroups processGroup
      simp [hm2, List.erase_cons_head]
    rw [hswap]
  | false =>
    have hsim2 : areTemporallySimilar B A = false := by rw [← hsymm]; exact hsim
    rw [greedyGroups_pair_neg hsim, greedyGroups_pair_neg hsim2]
    rw [mergeAllGroups_noGroups, mergeAllGroups_noGroups]
    exact List.Perm.swap B A []

/-- Witness for C6 amended: a garmin/strava pair (precedence 0 < 1). -/
theorem dedupPair_orderIndependent_witness :
    (deduplicateWorkouts coordClose
        [{ c6w1 with source := "garmin" }, { c6w2 with source := "strava" }]).Perm
      (deduplicateWorkouts coordClose
        [{ c6w2 with source := "strava" }, { c6w1 with source := "garmin" }]) :=
  dedupPair_orderIndependent coordClose _ _ rfl rfl rfl rfl (by decide)

/-! ## C9 -/

/-- Concatenation of the workouts of all successful sync results, in source
order (the `all_workouts` list of `sync_all_sources`). -/
def successfulWorkouts (cs : List ConnectorBehavior) : List Workout :=
  (cs.map syncData).foldl (fun acc r => if r.success then acc ++ r.workouts else acc) []

lemma syncData_source (c : ConnectorBehavior) : (syncData c).source = c.source := by
  cases h : c.outcome <;> simp [syncData, h]

lemma foldl_dictInsert_nodup {α : Type} :
    ∀ (rs : List (String × α)) (acc : List (String × α)),
      ((acc.map (fun p => p.1)) ++ (rs.map (fun p => p.1))).Nodup →
      rs.foldl (fun d p => dictInsert d p.1 p.2) acc = acc ++ rs := by
  intro rs
  induction rs with
  | nil =>
    intro acc _
    simp
  | cons p t ih =>
    intro acc hnd
    have hp1 : p.1 ∉ acc.map (fun q => q.1) := by
      simp only [List.map_cons] at hnd
      intro hmem
      rcases (List.nodup_append.mp hnd) with ⟨_, _, hdisj⟩
      exact hdisj hmem (List.mem_cons_self _ _)
    have hnoany : ¬ (acc.any (fun q => q.1 = p.1) = true) := by
      intro hany
      rcases List.any_eq_true.mp hany with ⟨q, hq, hq1⟩
      exact hp1 (List.mem_map.mpr ⟨q, hq, of_decide_eq_true hq1⟩)
    have hins : dictInsert acc p.1 p.2 = acc ++ [p] := by
      unfold dictInsert
      rw [if_neg hnoany]
    have hnd2 : (((acc ++ [p]).map (fun q => q.1)) ++ (t.map (fun q => q.1))).Nodup := by
      simp only [List.map_cons] at hnd
      simp only [List.map_append, List.map_singleton, List.append_assoc,
        List.singleton_append]
      exact hnd
    calc (p :: t).foldl (fun d q => dictInsert d q.1 q.2) acc
        = t.foldl (fun d q => dictInsert d q.1 q.2) (acc ++ [p]) := by
          rw [List.foldl_cons, hins]
      _ = (acc ++ [p]) ++ t := ih (acc ++ [p]) hnd2
      _ = acc ++ p :: t := by simp

lemma foldl_workouts_acc_sub :
    ∀ (rs : List SyncResult) (acc : List Workout),
      acc ⊆ rs.foldl (fun acc r => if r.success then acc ++ r.workouts else acc) acc := by
  intro rs
  induction rs with
  | nil => intro acc; exact fun _ h => h
  | cons r t ih =>
    intro acc
    rw [List.foldl_cons]
    intro w hw
    apply ih
    by_cases hs : r.success <;> simp [hs, hw]

lemma foldl_workouts_mem {rs : List SyncResult} {r : SyncResult} (hr : r ∈ rs)
    (hs : r.success = true) :
    ∀ acc, r.workouts ⊆ rs.foldl (fun acc r => if r.success then acc ++ r.workouts else acc) acc := by
  induction rs with
  | nil => exact absurd hr (List.not_mem_nil r)
  | cons r0 t ih =>
    intro acc
    rw [List.foldl_cons]
    rcases List.mem_cons.mp hr with heq | hmem
    · subst heq
      rw [if_pos hs]
      intro w hw
      exact foldl_workouts_acc_sub t (acc ++ r.workouts) (List.mem_append_right acc hw)
    · exact ih hmem _

/-- C9: the orchestrator sync isolates failures.  With distinct source names,
the summary's `source_results` records every connector's boundary result (in
particular a failing connector is reported as `success = false` with its
exception message and contributes no records), every successfully fetched
workout reaches the concatenated pre-deduplication batch, and the persisted
merged set is exactly the deduplication of that batch -- the sync boundary is
total, so no connector exception propagates to the caller. -/
theorem syncIsolation_spec (close : Coord → Coord → Bool) (cs : List ConnectorBehavior)
    (hnd : (cs.map (fun c => c.source)).Nodup) :
    (syncAllSources close cs).source_results = cs.map (fun c => (c.source, syncData c)) ∧
    (∀ c ∈ cs, ∀ e, c.outcome = FetchOutcome.excRaised e →
      (syncData c).success = false ∧ (syncData c).error = some e ∧
      (syncData c).workouts = [] ∧ (syncData c).biometrics = []) ∧
    (∀ c ∈ cs, ∀ ws bs, c.outcome = FetchOutcome.fetched ws bs →
      ∀ w ∈ ws, w ∈ successfulWorkouts cs) ∧
    (syncAllSources close cs).merged_workouts =
      (if (successfulWorkouts cs).isEmpty then []
        else deduplicateWorkouts close (successfulWorkouts cs)) := by
  refine ⟨?_, ?_, ?_, rfl⟩
  · have hshape : (cs.map syncData).foldl (fun d r => dictInsert d r.source r) [] =
        ((cs.map syncData).map (fun r => (r.source, r))).foldl
          (fun d p => dictInsert d p.1 p.2) [] := by
      simp only [List.foldl_map]
    have hkeys : ((([] : List (String × SyncResult)).map (fun p => p.1)) ++
        (((cs.map syncData).map (fun r => (r.source, r))).map (fun p => p.1))).Nodup := by
      simp only [List.map_nil, List.nil_append, List.map_map]
      have : ((fun p => p.1) ∘ (fun r => (r.source, r)) ∘ syncData) =
          (fun c : ConnectorBehavior => c.source) := by
        funext c
        exact syncData_source c
      rw [show (cs.map ((fun p : String × SyncResult => p.1) ∘
          ((fun r : SyncResult => (r.source, r)) ∘ syncData))) =
          cs.map (fun c => c.source) from by
        apply List.map_congr_left
        intro c _
        exact syncData_source c]
      exact hnd
    have h1 : (syncAllSources close cs).source_results =
        ((cs.map syncData).map (fun r => (r.source, r))) := by
      show (cs.map syncData).foldl (fun d r => dictInsert d r.source r) [] = _
      rw [hshape, foldl_dictInsert_nodup _ _ hkeys]
      simp
    rw [h1, List.map_map]
    apply List.map_congr_left
    intro c _
    simp only [Function.comp_apply]
    rw [syncData_source c]
  · intro c _ e ho
    simp [syncData, ho]
  · intro c hc ws bs ho w hw
    have hsd : syncData c = ⟨c.source, ws, bs, true, none⟩ := by
      simp [syncData, ho]
    have hmem : syncData c ∈ cs.map syncData := List.mem_map_of_mem syncData hc
    have := foldl_workouts_mem hmem (by rw [hsd]) []
    apply this
    rw [hsd]
    exact hw

/-- Connector behaviours for the C9 witness: a Garmin connector that fetches
one workout and a VeSync connector whose authentication raises. -/
def okConnector : ConnectorBehavior :=
  { source := "garmin", outcome := FetchOutcome.fetched [c6w1] [] }

/-- Failing connector of the C9 witness. -/
def badConnector : ConnectorBehavior :=
  { source := "vesync", outcome := FetchOutcome.excRaised "Failed to authenticate with vesync" }

/-- Witness for C9 at a two-connector cycle with one failure. -/
theorem syncIsolation_spec_witness :
    (syncAllSources coordClose [okConnector, badConnector]).source_results =
      [okConnector, badConnector].map (fun c => (c.source, syncData c)) :=
  (syncIsolation_spec coordClose [okConnector, badConnector] (by decide)).1

/-! ## Remaining witnesses -/

/-- Workout for the C4 and C10 witnesses. -/
def c4Workout : Workout :=
  { workout_id := "c4", start_time := 0, end_time := 60, duration := 60, sport := "Run",
    sport_category := "running", source := "garmin", calories := some 321 }

/-- Witness for C4 at a singleton merge group: the merged calories follow the
max-over-present formula. -/
theorem mergeGroup_spec_witness :
    c4Workout.calories = listMaxZ ([c4Workout].filterMap (fun w => w.calories)) :=
  (mergeGroup_spec [c4Workout] c4Workout rfl).2.1

/-- Witness for C10 at a concrete group with a listed source: the unlisted
source vesync ranks strictly after the listed source garmin. -/
theorem unlistedSource_spec_witness :
    getSourcePrecedence "garmin" < getSourcePrecedence "vesync" :=
  (unlistedSource_spec [c4Workout] c4Workout rfl
    ⟨c4Workout, List.mem_singleton_self _, by decide⟩).1 "vesync" (by decide) "garmin" (by decide)

/-- Readings for the C8 witness: two weight readings sharing a key and one
steps reading with a different key. -/
def bioR1 : BiometricReading :=
  { date := 1, metric_type := "weight", value := 70, unit := "kg", source := "vesync",
    confidence := 1 }

/-- Second reading of the C8 witness (same key, half confidence). -/
def bioR2 : BiometricReading :=
  { bioR1 with value := 80, confidence := 1/2 }

/-- Third reading of the C8 witness (different key). -/
def bioR3 : BiometricReading :=
  { bioR1 with metric_type := "steps", value := 100 }

/-- Witness for C8 at the three concrete readings. -/
theorem biometricDedup_spec_witness :
    ∃ b ∈ deduplicateBiometrics [bioR1, bioR2, bioR3],
      bioKey b = (1, "weight", "vesync") ∧
      b.value = (([bioR1, bioR2, bioR3].filter
          (fun r => bioKey r = (1, "weight", "vesync"))).map
            (fun r => r.value * r.confidence)).sum /
        (([bioR1, bioR2, bioR3].filter (fun r => bioKey r = (1, "weight", "vesync"))).map
          (fun r => r.confidence)).sum ∧
      b.confidence = min 1
        ((([bioR1, bioR2, bioR3].filter (fun r => bioKey r = (1, "weight", "vesync"))).map
            (fun r => r.confidence)).sum /
          (([bioR1, bioR2, bioR3].filter
            (fun r => bioKey r = (1, "weight", "vesync"))).length : ℚ)) ∧
      ∀ b2 ∈ deduplicateBiometrics [bioR1, bioR2, bioR3],
        bioKey b2 = (1, "weight", "vesync") → b2 = b :=
  biometricDedup_spec [bioR1, bioR2, bioR3] (1, "weight", "vesync")
    (by decide)
    (by
      intro r hr
      fin_cases hr <;> norm_num [bioR1, bioR2, bioR3])
    (by
      simp [bioR1, bioR2, bioR3, bioKey]
      norm_num)
